import Mathlib

set_option maxHeartbeats 1000000
set_option maxRecDepth 4000

/-!
Shallow embedding of the template-driven tabular import engine in
`backend/app/services/apply_mapping.py`.  Cell values are strings, numeric
values are modelled as rationals (the source parses decimal text), and the
per-row pipeline of `apply_mapping_csv_bytes` is modelled from the point
where the CSV reader has produced the list of raw rows.
-/

/-- Whitespace characters stripped by Python's `str.strip()` (ASCII range). -/
def isPySpace (c : Char) : Bool :=
  c = ' ' || c = '\t' || c = '\n' || c = '\r' || c = '\x0b' || c = '\x0c'

/-- Strip leading and trailing whitespace from a character list. -/
def pyStripList (cs : List Char) : List Char :=
  ((cs.dropWhile isPySpace).reverse.dropWhile isPySpace).reverse

/-- Python `str.strip()`. -/
def pyStrip (s : String) : String :=
  String.mk (pyStripList s.toList)

/-- Collapse maximal runs of whitespace into a single space
(`re.sub(r"\s+", " ", t)`). -/
def collapseWsAux : Bool → List Char → List Char
  | _, [] => []
  | prevSpace, c :: rest =>
    if isPySpace c then
      if prevSpace then collapseWsAux true rest
      else ' ' :: collapseWsAux true rest
    else c :: collapseWsAux false rest

/-- `re.sub(r"\s+", " ", s)`. -/
def collapseWs (s : String) : String :=
  String.mk (collapseWsAux false s.toList)

/-- Does `hay` start with `pat`? -/
def listStartsWith : List Char → List Char → Bool
  | [], _ => true
  | _ :: _, [] => false
  | p :: ps, h :: hs => p = h && listStartsWith ps hs

/-- Does `hay` contain `pat` as a contiguous substring (Python `in`)? -/
def listHasSub (pat : List Char) : List Char → Bool
  | [] => listStartsWith pat []
  | h :: hs => listStartsWith pat (h :: hs) || listHasSub pat hs

/-- Python `needle in hay` on strings. -/
def strHasSub (needle hay : String) : Bool :=
  listHasSub needle.toList hay.toList

/-- Index of the last occurrence of `c` (Python `str.rfind`, assuming the
character is present; returns 0 when absent, which no caller relies on). -/
def lastIdx (c : Char) (cs : List Char) : Nat :=
  (cs.enum.foldl (fun acc p => if p.2 = c then p.1 else acc) 0)

/-- Numeric value of a list of decimal digit characters. -/
def natOfDigits (cs : List Char) : Nat :=
  cs.foldl (fun a c => a * 10 + (c.toNat - '0'.toNat)) 0

/-- Grammar accepted by Python's `float()` on the cleaned remainder: an
optional sign, digits with at most one decimal point and at least one digit. -/
def floatParseList (cs : List Char) : Option ℚ :=
  let (sgn, rest) : ℚ × List Char :=
    match cs with
    | '-' :: r => (-1, r)
    | _ => (1, cs)
  let intPart := rest.takeWhile (fun c => c ≠ '.')
  let tail := rest.dropWhile (fun c => c ≠ '.')
  match tail with
  | [] =>
    if intPart ≠ [] ∧ intPart.all Char.isDigit then
      some (sgn * (natOfDigits intPart : ℚ))
    else none
  | _ :: frac =>
    if (intPart ≠ [] ∨ frac ≠ []) ∧ intPart.all Char.isDigit ∧
        frac.all Char.isDigit ∧ ¬ frac.contains '.' then
      some (sgn * mkRat
        (natOfDigits intPart * 10 ^ frac.length + natOfDigits frac)
        (10 ^ frac.length))
    else none

/-- Characters kept by `_NUM_RE.sub("", t)` (the regex removes every other
character): digits, comma, dot, minus, parentheses and apostrophe. -/
def numKeep (c : Char) : Bool :=
  c.isDigit || c = ',' || c = '.' || c = '-' || c = '(' || c = ')' || c = '\''

/-- Decimal/thousands separator normalisation of `_parse_number`:
`auto` mode decides by the later-occurring of `,` and `.`; explicit modes
erase the other symbol; any other setting leaves the text unchanged. -/
def sepTransform (cs : List Char) (dec : String) : List Char :=
  let commaToDot : Char → Char := fun c => if c = ',' then '.' else c
  if dec = "auto" then
    if cs.contains ',' ∧ cs.contains '.' then
      if lastIdx '.' cs < lastIdx ',' cs then
        (cs.filter (fun c => c ≠ '.')).map commaToDot
      else cs.filter (fun c => c ≠ ',')
    else if cs.contains ',' then cs.map commaToDot
    else cs
  else if dec = "," then (cs.filter (fun c => c ≠ '.')).map commaToDot
  else if dec = "." then cs.filter (fun c => c ≠ ',')
  else cs

/-- `_parse_number(s, decimal_separator, thousands_separator)`:
locale-ambiguous text-to-number conversion.  The thousands separator
parameter is accepted but (as in the source) never consulted; `'` is always
stripped.  Returns `none` on empty or unparseable input. -/
def parse_number (s : String) (dec thou : String) : Option ℚ :=
  let _ := thou
  let t0 := pyStripList s.toList
  if t0 = [] then none
  else
    let t1 :=
      if listStartsWith ['=', '"'] t0 && t0.getLast? == some '"' then
        pyStripList (t0.drop 2).dropLast
      else t0
    let neg := listStartsWith ['('] t1 && t1.getLast? == some ')'
    let t2 := if neg then pyStripList (t1.drop 1).dropLast else t1
    let cs0 := (t2.filter numKeep).filter (fun c => c ≠ '\'')
    let cs1 := sepTransform cs0 dec
    match floatParseList cs1 with
    | some v => some (if neg then -v else v)
    | none => none

/-- Shape test for `^\d{4}-\d{2}-\d{2}$`. -/
def isIsoShape (s : String) : Bool :=
  match s.toList with
  | [a, b, c, d, '-', e, f, '-', g, h] =>
    a.isDigit && b.isDigit && c.isDigit && d.isDigit &&
    e.isDigit && f.isDigit && g.isDigit && h.isDigit
  | _ => false

/-- Shape test for `^\d{2}\.\d{2}\.\d{4}$`. -/
def isDmy4Shape (s : String) : Bool :=
  match s.toList with
  | [a, b, '.', c, d, '.', e, f, g, h] =>
    a.isDigit && b.isDigit && c.isDigit && d.isDigit &&
    e.isDigit && f.isDigit && g.isDigit && h.isDigit
  | _ => false

/-- Shape test for `^\d{2}\.\d{2}\.\d{2}$`. -/
def isDmy2Shape (s : String) : Bool :=
  match s.toList with
  | [a, b, '.', c, d, '.', e, f] =>
    a.isDigit && b.isDigit && c.isDigit && d.isDigit &&
    e.isDigit && f.isDigit
  | _ => false

/-- `_looks_like_date`: cheap structural pre-check used to classify rows. -/
def looks_like_date (s : String) : Bool :=
  let t := pyStrip s
  if t = "" then false
  else isIsoShape t || isDmy4Shape t || isDmy2Shape t

/-- Gregorian leap-year test. -/
def isLeap (y : Nat) : Bool :=
  y % 4 = 0 && (y % 100 ≠ 0 || y % 400 = 0)

/-- Days in a month, as validated by `datetime`. -/
def daysInMonth (y m : Nat) : Nat :=
  if m = 2 then (if isLeap y then 29 else 28)
  else if m = 4 ∨ m = 6 ∨ m = 9 ∨ m = 11 then 30
  else 31

/-- A day field per `strptime` `%d`: one or two digits, value 1..31. -/
def dayField (s : String) : Option Nat :=
  let cs := s.toList
  if cs.all Char.isDigit ∧ 1 ≤ cs.length ∧ cs.length ≤ 2 then
    let v := natOfDigits cs
    if 1 ≤ v ∧ v ≤ 31 then some v else none
  else none

/-- A month field per `strptime` `%m`: one or two digits, value 1..12. -/
def monthField (s : String) : Option Nat :=
  let cs := s.toList
  if cs.all Char.isDigit ∧ 1 ≤ cs.length ∧ cs.length ≤ 2 then
    let v := natOfDigits cs
    if 1 ≤ v ∧ v ≤ 12 then some v else none
  else none

/-- A year field per `strptime` `%Y`: exactly four digits, year ≥ 1
(`datetime` rejects year 0). -/
def year4Field (s : String) : Option Nat :=
  let cs := s.toList
  if cs.all Char.isDigit ∧ cs.length = 4 then
    let v := natOfDigits cs
    if 1 ≤ v then some v else none
  else none

/-- A year field per `strptime` `%y`: exactly two digits, pivoting at 68/69
(≤ 68 means 20xx, otherwise 19xx). -/
def year2Field (s : String) : Option Nat :=
  let cs := s.toList
  if cs.all Char.isDigit ∧ cs.length = 2 then
    let v := natOfDigits cs
    some (if v ≤ 68 then 2000 + v else 1900 + v)
  else none

/-- Split a character list at every occurrence of `sep`
(Python `str.split(sep)` for a one-character separator). -/
def splitOnChar (sep : Char) : List Char → List (List Char)
  | [] => [[]]
  | c :: rest =>
    let r := splitOnChar sep rest
    if c = sep then [] :: r
    else
      match r with
      | [] => [[c]]
      | g :: gs => (c :: g) :: gs

/-- Left-pad the decimal rendering of `n` with zeros to width `w`. -/
def padNum (w n : Nat) : String :=
  let s := toString n
  String.mk (List.replicate (w - s.length) '0') ++ s

/-- `strftime("%Y-%m-%d")` on a validated date. -/
def formatIso (y m d : Nat) : String :=
  padNum 4 y ++ "-" ++ padNum 2 m ++ "-" ++ padNum 2 d

/-- Validate the day against the month length, then render ISO. -/
def mkValidDate (y m d : Nat) : Option String :=
  if d ≤ daysInMonth y m then some (formatIso y m d) else none

/-- `strptime(t, "%Y-%m-%d")` followed by `strftime("%Y-%m-%d")`. -/
def strpYmd (t : String) : Option String :=
  match (splitOnChar '-' t.toList).map String.mk with
  | [ys, ms, ds] =>
    match year4Field ys, monthField ms, dayField ds with
    | some y, some m, some d => mkValidDate y m d
    | _, _, _ => none
  | _ => none

/-- `strptime(t, "%d.%m.%Y")` followed by `strftime("%Y-%m-%d")`. -/
def strpDmy4 (t : String) : Option String :=
  match (splitOnChar '.' t.toList).map String.mk with
  | [ds, ms, ys] =>
    match year4Field ys, monthField ms, dayField ds with
    | some y, some m, some d => mkValidDate y m d
    | _, _, _ => none
  | _ => none

/-- `strptime(t, "%d.%m.%y")` followed by `strftime("%Y-%m-%d")`. -/
def strpDmy2 (t : String) : Option String :=
  match (splitOnChar '.' t.toList).map String.mk with
  | [ds, ms, ys] =>
    match year2Field ys, monthField ms, dayField ds with
    | some y, some m, some d => mkValidDate y m d
    | _, _, _ => none
  | _ => none

/-- One configured format name tried by `_parse_date_to_iso`; unknown
format strings are skipped. -/
def tryFormat (f t : String) : Option String :=
  if f = "yyyy-mm-dd" then strpYmd t
  else if f = "dd.mm.yyyy" then strpDmy4 t
  else if f = "dd.mm.yy" then strpDmy2 t
  else none

/-- Try each configured format in order, returning the first success. -/
def tryFormats : List String → String → Option String
  | [], _ => none
  | f :: fs, t =>
    match tryFormat f t with
    | some r => some r
    | none => tryFormats fs t

/-- Default date formats used when the template supplies none. -/
def defaultDateFormats : List String := ["yyyy-mm-dd", "dd.mm.yyyy", "dd.mm.yy"]

/-- `_parse_date_to_iso(s, date_formats)`: trims, returns a literal
`yyyy-mm-dd` shape verbatim (fast path), otherwise tries each configured
format in order. -/
def parse_date_to_iso (s : String) (dateFormats : List String) : Option String :=
  let t := pyStrip s
  if t = "" then none
  else if isIsoShape t then some t
  else
    tryFormats (if dateFormats = [] then defaultDateFormats else dateFormats) t

/-- Is `c` in the class `[a-z0-9_]` used by `_normalize_header`? -/
def isHeaderChar (c : Char) : Bool :=
  ('a' ≤ c && c ≤ 'z') || ('0' ≤ c && c ≤ '9') || c = '_'

/-- Replace maximal runs of characters outside `[a-z0-9_]` with one `_`. -/
def subInvalidAux : Bool → List Char → List Char
  | _, [] => []
  | prevBad, c :: rest =>
    if isHeaderChar c then c :: subInvalidAux false rest
    else if prevBad then subInvalidAux true rest
    else '_' :: subInvalidAux true rest

/-- Collapse runs of `_` into a single `_` (`re.sub(r"_+", "_", t)`). -/
def collapseUnderscoreAux : Bool → List Char → List Char
  | _, [] => []
  | prevU, c :: rest =>
    if c = '_' then
      if prevU then collapseUnderscoreAux true rest
      else '_' :: collapseUnderscoreAux true rest
    else c :: collapseUnderscoreAux false rest

/-- `str.strip("_")`. -/
def stripUnderscores (cs : List Char) : List Char :=
  ((cs.dropWhile (fun c => c = '_')).reverse.dropWhile (fun c => c = '_')).reverse

/-- `_normalize_header`: lowercase, collapse whitespace, spaces to `_`,
invalid characters to `_`, collapse repeated `_`, strip outer `_`. -/
def normalize_header (s : String) : String :=
  let t1 := String.mk ((pyStripList s.toList).map Char.toLower)
  let t2 := pyStrip (collapseWs t1)
  let t3 := t2.toList.map (fun c => if c = ' ' then '_' else c)
  let t4 := subInvalidAux false t3
  let t5 := collapseUnderscoreAux false t4
  String.mk (stripUnderscores t5)

/-- A raw row: normalized header name mapped to the raw cell string.
Python dicts have unique keys; lookups take the first matching pair. -/
def Row : Type := List (String × String)

instance : DecidableEq Row := by unfold Row; infer_instance

instance : Inhabited Row := ⟨([] : List (String × String))⟩

instance : Repr Row := by unfold Row; infer_instance

/-- Dict lookup `row.get(key)`. -/
def rowLookup (r : Row) (k : String) : Option String :=
  (r.find? (fun kv => kv.1 = k)).map (fun kv => kv.2)

/-- Dict assignment `row[key] = v`: replace the first pair with that key in
place, or append a new pair. -/
def setCell (r : Row) (k v : String) : Row :=
  match r with
  | [] => [(k, v)]
  | (k', v') :: rest =>
    if k' = k then (k, v) :: rest else (k', v') :: setCell rest k v

/-- Remove the first pair with the given key. -/
def eraseKey (k : String) (r : Row) : Row :=
  List.eraseP (fun kv => kv.1 = k) r

/-- `_safe_get(row, key)`: empty string for a falsy key or missing cell,
otherwise the stripped cell text. -/
def safe_get (r : Row) (k : Option String) : String :=
  match k with
  | none => ""
  | some s => if s = "" then "" else pyStrip ((rowLookup r s).getD "")

/-- Join character lists with single spaces (`" ".join(parts)`). -/
def joinWithSpace : List (List Char) → List Char
  | [] => []
  | [p] => p
  | p :: ps => p ++ ' ' :: joinWithSpace ps

/-- `_compose_text(row, cols)`: join the non-blank stripped cells with
single spaces and collapse whitespace. -/
def compose_text (r : Row) (cols : List String) : String :=
  let parts := (cols.map (fun c => safe_get r (some c))).filter (fun v => v ≠ "")
  pyStrip (collapseWs (String.mk (joinWithSpace (parts.map String.toList))))

/-- Column selector: the source resolves columns by normalized header name. -/
structure ColumnSelector where
  by_header_normalized : Option String
deriving DecidableEq, Repr, Inhabited

/-- Amount mapping section of a template. -/
structure AmountMapping where
  mode : String
  signed_column : Option ColumnSelector
  debit_column : Option ColumnSelector
  credit_column : Option ColumnSelector
deriving DecidableEq, Repr, Inhabited

/-- Field mapping section of a template. -/
structure Mapping where
  date_column : Option ColumnSelector
  text_columns : List ColumnSelector
  amount : AmountMapping
  valuta_date_column : Option ColumnSelector
  currency_column : Option ColumnSelector
  fixed_currency : Option String
deriving DecidableEq, Repr, Inhabited

/-- CSV input settings of a template. -/
structure CsvInput where
  delimiter : String
  encoding : String
  decimal_separator : String
  thousands_separator : String
deriving DecidableEq, Repr, Inhabited

/-- Table position settings (1-based row indices). -/
structure TableInput where
  header_row : Int
  data_start_row : Int
deriving DecidableEq, Repr, Inhabited

/-- Input section of a template. -/
structure InputCfg where
  kind : String
  csv : CsvInput
  table : TableInput
deriving DecidableEq, Repr, Inhabited

/-- Validation section of a template. -/
structure Validation where
  date_formats : List String
  max_parse_errors_before_fail : Int
deriving DecidableEq, Repr, Inhabited

/-- Preprocessing section of a template. -/
structure Preprocessing where
  explode_compound_rows : Bool
deriving DecidableEq, Repr, Inhabited

/-- The declarative mapping template supplied by the caller. -/
structure MappingTemplate where
  input : InputCfg
  mapping : Mapping
  validation : Validation
  preprocessing : Preprocessing
deriving DecidableEq, Repr, Inhabited

/-- The `by_header_normalized` name of an optional selector. -/
def selCol (c : Option ColumnSelector) : Option String :=
  c.bind (fun s => s.by_header_normalized)

/-- Python truthiness on an optional string: `None` and `""` are falsy. -/
def truthyOpt (o : Option String) : Option String :=
  match o with
  | some s => if s = "" then none else some s
  | none => none

/-- The text column names used for composition: selectors with a truthy
`by_header_normalized`. -/
def collectTextCols (m : Mapping) : List String :=
  m.text_columns.filterMap (fun c => truthyOpt c.by_header_normalized)

/-- Keywords marking a header as amount-like in `_find_amount_fallback`. -/
def amountKeywords : List String :=
  ["betrag_detail", "einzelbetrag", "betrag", "amount", "summe", "total",
   "gutschrift", "lastschrift"]

/-- Priority score of `_find_amount_fallback`: detail amount, single amount,
generic exact `betrag`/`amount`, everything else. -/
def fallbackScore (x : String) : Nat :=
  if strHasSub "betrag_detail" x then 0
  else if strHasSub "einzelbetrag" x then 1
  else if x = "betrag" ∨ x = "amount" then 2
  else 3

/-- Deduplicate keeping the first occurrence (`dict.fromkeys`). -/
def dedupKeepFirstAux (seen : List String) : List String → List String
  | [] => []
  | x :: xs =>
    if x ∈ seen then dedupKeepFirstAux seen xs
    else x :: dedupKeepFirstAux (x :: seen) xs

/-- Deduplicate a list of strings keeping first occurrences. -/
def dedupKeepFirst (l : List String) : List String :=
  dedupKeepFirstAux [] l

/-- `_find_amount_fallback(headers_norm)`: the amount-like headers, stably
ordered by priority score (Python's stable `sorted` with a 4-valued key). -/
def find_amount_fallback (headersNorm : List String) : List String :=
  let cands := headersNorm.filter
    (fun h => amountKeywords.any (fun k => strHasSub k h))
  let uniq := dedupKeepFirst cands
  (uniq.filter (fun h => fallbackScore h = 0)) ++
  (uniq.filter (fun h => fallbackScore h = 1)) ++
  (uniq.filter (fun h => fallbackScore h = 2)) ++
  (uniq.filter (fun h => fallbackScore h = 3))

/-- Result of the amount resolver. -/
structure AmountResult where
  signed : Option ℚ
  direction : Option String
  source : String
deriving DecidableEq, Repr, Inhabited

/-- Direction derived from the sign of an amount: positive is `CRDT`,
negative is `DBIT`, zero has no direction. -/
def signDir (v : ℚ) : Option String :=
  if 0 < v then some "CRDT" else if v < 0 then some "DBIT" else none

/-- Direction of an optional amount. -/
def dirOf : Option ℚ → Option String
  | some v => signDir v
  | none => none

/-- Primary amount resolution of `_compute_signed_amount` (before the
fallback search): the signed column in `signed` mode, otherwise the
debit/credit reconstruction. -/
def primarySigned (row : Row) (tmpl : MappingTemplate) : Option ℚ :=
  let dec := tmpl.input.csv.decimal_separator
  let thou := tmpl.input.csv.thousands_separator
  if tmpl.mapping.amount.mode = "signed" then
    match truthyOpt (selCol tmpl.mapping.amount.signed_column) with
    | some c => parse_number (safe_get row (some c)) dec thou
    | none => none
  else
    let dv :=
      match truthyOpt (selCol tmpl.mapping.amount.debit_column) with
      | some c => parse_number (safe_get row (some c)) dec thou
      | none => none
    let cv :=
      match truthyOpt (selCol tmpl.mapping.amount.credit_column) with
      | some c => parse_number (safe_get row (some c)) dec thou
      | none => none
    match cv, dv with
    | some c, some d => some (c - d)
    | some c, none => some c
    | none, some d => some (if d < 0 then d else -d)
    | none, none => none

/-- Is the primary resolution missing or within `1e-12` of zero? -/
def needsFallback : Option ℚ → Bool
  | none => true
  | some v => |v| < mkRat 1 1000000000000

/-- The fallback scan: first candidate column whose cell parses to a value
of magnitude at least `1e-12`, together with the column name. -/
def fallbackScan (row : Row) (tmpl : MappingTemplate) :
    List String → Option (ℚ × String)
  | [] => none
  | h :: hs =>
    match parse_number (safe_get row (some h))
        tmpl.input.csv.decimal_separator tmpl.input.csv.thousands_separator with
    | some v =>
      if |v| < mkRat 1 1000000000000 then fallbackScan row tmpl hs
      else some (v, h)
    | none => fallbackScan row tmpl hs

/-- `_compute_signed_amount(row, headers_norm, template, parent_sign)`:
primary resolution, direction from the sign, and the fallback search over
amount-like headers with the optional parent-sign override. -/
def compute_signed_amount (row : Row) (headersNorm : List String)
    (tmpl : MappingTemplate) (parentSign : Option Int) : AmountResult :=
  let p := primarySigned row tmpl
  if needsFallback p then
    let scan := fallbackScan row tmpl (find_amount_fallback headersNorm)
    let s2 : Option ℚ :=
      match scan with
      | some vh => some vh.1
      | none => p
    let src : String :=
      match scan with
      | some vh => "fallback:" ++ vh.2
      | none => "mapped"
    let s3 : Option ℚ :=
      match s2 with
      | some v =>
        if parentSign = some 1 ∨ parentSign = some (-1) then
          some (|v| * ((parentSign.getD 1 : Int) : ℚ))
        else some v
      | none => none
    let d3 : Option String :=
      match s3 with
      | some v => signDir v
      | none => dirOf p
    ⟨s3, d3, src⟩
  else ⟨p, dirOf p, "mapped"⟩

/-- `is_group_parent` inner predicate: a `(<digits>)` marker check, starting
from a position just past an opening parenthesis. -/
def parenDigitsAt (cs : List Char) : Bool :=
  let ds := cs.takeWhile Char.isDigit
  match ds, cs.drop ds.length with
  | _ :: _, ')' :: _ => true
  | _, _ => false

/-- Search for `\(\d+\)` anywhere in the text (`re.search`). -/
def hasParenNum : List Char → Bool
  | [] => false
  | c :: rest =>
    if c = '(' then parenDigitsAt rest || hasParenNum rest
    else hasParenNum rest

/-- `is_group_parent(text)`: lowercased text containing a `(<digits>)`
marker or the substring `sammel`. -/
def is_group_parent (text : String) : Bool :=
  let t := String.mk (text.toList.map Char.toLower)
  hasParenNum t.toList || strHasSub "sammel" t

/-- A row is `dated` when its date cell is non-empty and passes
`_looks_like_date`. -/
def rowIsDated (dateCol : String) (r : Row) : Bool :=
  let d := safe_get r (some dateCol)
  d ≠ "" && looks_like_date d

/-- A row is non-blank when some cell value is non-empty after stripping
(`any(str(v).strip() for v in rr.values())`). -/
def rowNonBlank (r : Row) : Bool :=
  r.any (fun kv => pyStrip kv.2 ≠ "")

/-- Child amounts of a candidate group: each date-filled child is resolved
with the parent's sign, keeping values of magnitude above `1e-9`. -/
def childAmounts (fixed : List Row) (headersNorm : List String)
    (tmpl : MappingTemplate) (signInt : Int) : List ℚ :=
  fixed.filterMap (fun c2 =>
    match (compute_signed_amount c2 headersNorm tmpl (some signInt)).signed with
    | some a => if |a| > mkRat 1 1000000000 then some a else none
    | none => none)

/-- The single left-to-right pass of `_expand_compound_rows`: at each dated
row, collect the undated rows up to the next dated row; when the group
qualifies and the child amounts reconcile with the parent within `0.02`,
emit the date-filled children instead of the parent and skip the group;
otherwise emit the row and continue with the immediately following row.
The extra fuel argument (always at least the list length at the call site)
only makes the recursion structural; it never runs out. -/
def expandLoopFuel (dateCol : String) (textCols : List String)
    (headersNorm : List String) (tmpl : MappingTemplate) :
    Nat → List Row → List Row
  | _, [] => []
  | 0, rows => rows
  | fuel + 1, r :: rest =>
    if rowIsDated dateCol r then
      let d := safe_get r (some dateCol)
      let parentText := if textCols ≠ [] then compose_text r textCols else ""
      let parentAmt := (compute_signed_amount r headersNorm tmpl none).signed
      let gap := rest.takeWhile (fun rr => ¬ rowIsDated dateCol rr)
      let rest' := rest.dropWhile (fun rr => ¬ rowIsDated dateCol rr)
      let children := gap.filter rowNonBlank
      match parentAmt with
      | some pa =>
        if children ≠ [] ∧ is_group_parent parentText ∧ |pa| > mkRat 1 1000000000 then
          let signInt : Int := if 0 < pa then 1 else -1
          let fixed := children.map (fun c => setCell c dateCol d)
          let camts := childAmounts fixed headersNorm tmpl signInt
          if camts ≠ [] ∧ |camts.sum - pa| ≤ mkRat 2 100 then
            fixed ++ expandLoopFuel dateCol textCols headersNorm tmpl fuel rest'
          else r :: expandLoopFuel dateCol textCols headersNorm tmpl fuel rest
        else r :: expandLoopFuel dateCol textCols headersNorm tmpl fuel rest
      | none => r :: expandLoopFuel dateCol textCols headersNorm tmpl fuel rest
    else r :: expandLoopFuel dateCol textCols headersNorm tmpl fuel rest

/-- The expansion pass, with the fuel set to the row count. -/
def expandLoop (dateCol : String) (textCols : List String)
    (headersNorm : List String) (tmpl : MappingTemplate)
    (rows : List Row) : List Row :=
  expandLoopFuel dateCol textCols headersNorm tmpl rows.length rows

/-- Post-pass of `_expand_compound_rows`: carry the last seen valid date
forward onto rows still lacking a date. -/
def carryForward (dateCol : String) : Option String → List Row → List Row
  | _, [] => []
  | last, r :: rs =>
    let dd := safe_get r (some dateCol)
    if dd ≠ "" ∧ looks_like_date dd then
      r :: carryForward dateCol (some dd) rs
    else if dd = "" then
      (match last with
       | some ld => setCell r dateCol ld
       | none => r) :: carryForward dateCol last rs
    else r :: carryForward dateCol last rs

/-- `_expand_compound_rows(rows, headers_norm, template)`: identity without
a truthy date-column selector, otherwise the expansion pass followed by the
carry-forward post-pass. -/
def expand_compound_rows (rows : List Row) (headersNorm : List String)
    (tmpl : MappingTemplate) : List Row :=
  match truthyOpt (selCol tmpl.mapping.date_column) with
  | none => rows
  | some dateCol =>
    let textCols := collectTextCols tmpl.mapping
    carryForward dateCol none (expandLoop dateCol textCols headersNorm tmpl rows)

/-- A row-level validation issue. -/
structure Issue where
  code : String
  message : String
  field : Option String
deriving DecidableEq, Repr, Inhabited

/-- A canonical transaction as assembled per row. -/
structure Tx where
  schema_version : String
  import_id : String
  row_index : Int
  source_file_name : String
  booking_date : Option String
  valuta_date : Option String
  currency : String
  amount_signed : Option ℚ
  direction : Option String
  exchange_rate : Option ℚ
  text_raw : String
  text_clean : Option String
  balance : Option ℚ
  raw : Row
  status : String
  issues : List Issue
deriving DecidableEq, Repr, Inhabited

/-- A draft bookkeeping posting. -/
structure DraftPosting where
  label : String
  amount : ℚ
  currency : String
  exchange_rate : ℚ
  debit_account : String
  credit_account : String
  vat_code : Option String
  vat_account : Option String
deriving DecidableEq, Repr, Inhabited

/-- One entry of the `errors[]` report: the row index, the issues, and the
raw row cells. -/
structure ErrRec where
  row_index : Int
  issues : List Issue
  raw : Row
deriving DecidableEq, Repr, Inhabited

/-- The result structure of `apply_mapping_csv_bytes`. -/
structure ApplyResult where
  rows_ok : Nat
  rows_error : Nat
  errors : List ErrRec
  transactions : List Tx
  postings_draft : List DraftPosting
deriving DecidableEq, Repr, Inhabited

/-- `build_draft_posting(tx, bank_account_gl, vat_enabled)`: amount is the
absolute signed amount (0 when missing); a positive amount debits the bank
account, a negative one credits it; the label falls back from `text_clean`
to `text_raw` to the empty string.  The transaction model carries no VAT
fields, so both VAT outputs are `None` as in the source. -/
def build_draft_posting (tx : Tx) (bankAccountGl : String)
    (vatEnabled : Bool) : DraftPosting :=
  let _ := vatEnabled
  let amount : ℚ :=
    match tx.amount_signed with
    | none => 0
    | some a => a
  let debit := if 0 < amount then bankAccountGl else ""
  let credit := if amount < 0 then bankAccountGl else ""
  let label :=
    match tx.text_clean with
    | some s => if s = "" then (if tx.text_raw = "" then "" else tx.text_raw) else s
    | none => if tx.text_raw = "" then "" else tx.text_raw
  { label := label
    amount := |amount|
    currency := if tx.currency = "" then "CHF" else tx.currency
    exchange_rate :=
      match tx.exchange_rate with
      | some v => if v = 0 then 1 else v
      | none => 1
    debit_account := debit
    credit_account := credit
    vat_code := none
    vat_account := none }

/-- The per-call configuration resolved once by `apply_mapping_csv_bytes`
before the row loop. -/
structure ApplyCfg where
  tmpl : MappingTemplate
  import_id : String
  source_file_name : String
  headers_norm : List String
  date_col : Option String
  valuta_col : Option String
  currency_col : Option String
  fixed_currency : Option String
  text_cols : List String
  date_formats : List String
deriving Repr, Inhabited

/-- Resolve the per-call configuration from the raw table rows and the
template (headers, selectors, formats). -/
def mkApplyCfg (allRows : List (List String)) (tmpl : MappingTemplate)
    (importId sourceFileName : String) : ApplyCfg :=
  let hIdx := (max (tmpl.input.table.header_row - 1) 0).toNat
  let headers := allRows.getD hIdx []
  { tmpl := tmpl
    import_id := importId
    source_file_name := sourceFileName
    headers_norm := headers.map normalize_header
    date_col := selCol tmpl.mapping.date_column
    valuta_col :=
      match tmpl.mapping.valuta_date_column with
      | some sel => sel.by_header_normalized
      | none => none
    currency_col :=
      match tmpl.mapping.currency_column with
      | some sel => sel.by_header_normalized
      | none => none
    fixed_currency := tmpl.mapping.fixed_currency
    text_cols := collectTextCols tmpl.mapping
    date_formats :=
      if tmpl.validation.date_formats = [] then defaultDateFormats
      else tmpl.validation.date_formats }

/-- Build the dict for one data row: truncate or pad the cells to the
header count, then assign `headers_norm[k] := row2[k]` left to right. -/
def buildRowObj (headersNorm : List String) (row : List String) : Row :=
  let row2 := row.take headersNorm.length ++
    List.replicate (headersNorm.length - row.length) ""
  (headersNorm.zip row2).foldl (fun acc kv => setCell acc kv.1 kv.2) []

/-- The extracted rows: data rows from `data_start_row` on, blank rows
skipped, each turned into a header-keyed record; the compound-row expander
runs when `explode_compound_rows` is enabled. -/
def processedRows (allRows : List (List String)) (tmpl : MappingTemplate) :
    List Row :=
  let hIdx := (max (tmpl.input.table.header_row - 1) 0).toNat
  let dIdx := (max (tmpl.input.table.data_start_row - 1) 0).toNat
  let headers := allRows.getD hIdx []
  let headersNorm := headers.map normalize_header
  let parsed := (allRows.drop dIdx).filterMap (fun row =>
    if row.isEmpty ∨ row.all (fun c => pyStrip c = "") then none
    else some (buildRowObj headersNorm row))
  if tmpl.preprocessing.explode_compound_rows then
    expand_compound_rows parsed headersNorm tmpl
  else parsed

/-- Assemble the canonical transaction for one row (the body of the row
loop in `apply_mapping_csv_bytes`). -/
def mkTx (cfg : ApplyCfg) (idx : Int) (rawRow : Row) : Tx :=
  let bookingRaw := safe_get rawRow cfg.date_col
  let bookingIso := parse_date_to_iso bookingRaw cfg.date_formats
  let issues1 : List Issue :=
    match bookingIso with
    | some _ => []
    | none => [⟨"invalid_date", "Could not parse booking_date", some "booking_date"⟩]
  let valutaIso : Option String :=
    match truthyOpt cfg.valuta_col with
    | some vc =>
      let vraw := safe_get rawRow (some vc)
      if vraw ≠ "" then parse_date_to_iso vraw cfg.date_formats else none
    | none => none
  let textRaw := compose_text rawRow cfg.text_cols
  let issues2 := issues1 ++
    (if textRaw = "" then
      [⟨"missing_text", "text_raw is empty after composition", some "text_raw"⟩]
    else [])
  let c1 := truthyOpt cfg.fixed_currency
  let c2 :=
    match c1 with
    | some s => some s
    | none =>
      match truthyOpt cfg.currency_col with
      | some cc => truthyOpt (some (safe_get rawRow (some cc)))
      | none => none
  let currency :=
    match c2 with
    | some s => s
    | none => "CHF"
  let ar := compute_signed_amount rawRow cfg.headers_norm cfg.tmpl none
  let issues3 := issues2 ++
    (match ar.signed with
     | some _ => []
     | none => [⟨"missing_amount", "Could not parse amount", some "amount_signed"⟩])
  { schema_version := "canonical_tx_v1"
    import_id := cfg.import_id
    row_index := idx
    source_file_name := cfg.source_file_name
    booking_date := bookingIso
    valuta_date := valutaIso
    currency := currency
    amount_signed := ar.signed
    direction := ar.direction
    exchange_rate := none
    text_raw := textRaw
    text_clean := none
    balance := none
    raw := rawRow
    status := if issues3 = [] then "ok" else "error"
    issues := issues3 }

/-- Accumulated output of the row loop. -/
structure ProcOut where
  txs : List Tx
  errs : List ErrRec
  posts : List DraftPosting
deriving DecidableEq, Repr, Inhabited

/-- The row loop of `apply_mapping_csv_bytes`: each row becomes a
transaction; under `max_parse_errors_before_fail == 0` an error row is
diverted to the error report instead; a truthy bank account also yields a
draft posting per kept transaction. -/
def procAll (cfg : ApplyCfg) (maxFail : Int) (bank : Option String)
    (vatEnabled : Bool) (idx : Int) : List Row → ProcOut
  | [] => ⟨[], [], []⟩
  | r :: rs =>
    let tx := mkTx cfg idx r
    let rec_ := procAll cfg maxFail bank vatEnabled (idx + 1) rs
    if tx.status = "error" ∧ maxFail = 0 then
      ⟨rec_.txs, ⟨idx, tx.issues, r⟩ :: rec_.errs, rec_.posts⟩
    else
      ⟨tx :: rec_.txs, rec_.errs,
        match truthyOpt bank with
        | some b => build_draft_posting tx b vatEnabled :: rec_.posts
        | none => rec_.posts⟩

/-- The single failure result returned when the header row is out of range. -/
def headerOutOfRangeResult : ApplyResult :=
  { rows_ok := 0
    rows_error := 1
    errors := [⟨0, [⟨"header_out_of_range", "Header row out of range", none⟩], []⟩]
    transactions := []
    postings_draft := [] }

/-- `apply_mapping_csv_bytes` from the point where the CSV reader has
produced `all_rows`: header resolution, row extraction, optional
compound-row expansion, the per-row loop, and the result assembly. -/
def apply_mapping_rows (allRows : List (List String)) (tmpl : MappingTemplate)
    (importId sourceFileName : String) (bankAccountGl : Option String)
    (vatEnabled : Bool) : ApplyResult :=
  let hIdx := (max (tmpl.input.table.header_row - 1) 0).toNat
  if allRows.length ≤ hIdx then headerOutOfRangeResult
  else
    let cfg := mkApplyCfg allRows tmpl importId sourceFileName
    let rows := processedRows allRows tmpl
    let o := procAll cfg tmpl.validation.max_parse_errors_before_fail
      bankAccountGl vatEnabled tmpl.input.table.data_start_row rows
    { rows_ok := o.txs.length
      rows_error := o.errs.length
      errors := o.errs
      transactions := o.txs
      postings_draft := o.posts }

section RatKernelEval

attribute [local semireducible] Rat.add Rat.mul Rat.sub Rat.inv Rat.ofScientific

/-- Convenience constructor for a header-name column selector. -/
def mkSel (s : String) : Option ColumnSelector := some ⟨some s⟩

/-- A typical template: signed amount column `betrag`, date `datum`,
one text column, default formats, default error policy. -/
def fixtureTemplate : MappingTemplate :=
  ⟨⟨"csv", ⟨";", "auto", "auto", "auto"⟩, ⟨1, 2⟩⟩,
   ⟨mkSel "datum", [⟨some "text"⟩], ⟨"signed", mkSel "betrag", none, none⟩,
    none, none, none⟩,
   ⟨["yyyy-mm-dd", "dd.mm.yyyy", "dd.mm.yy"], 0⟩,
   ⟨true⟩⟩

/-- A template in signed mode with no signed column configured. -/
def fixtureTemplateNoAmount : MappingTemplate :=
  ⟨⟨"csv", ⟨";", "auto", "auto", "auto"⟩, ⟨1, 2⟩⟩,
   ⟨mkSel "datum", [⟨some "text"⟩], ⟨"signed", none, none, none⟩,
    none, none, none⟩,
   ⟨["yyyy-mm-dd", "dd.mm.yyyy", "dd.mm.yy"], 0⟩,
   ⟨true⟩⟩

/-- A template in `debit_credit` mode. -/
def fixtureTemplateDC : MappingTemplate :=
  ⟨⟨"csv", ⟨";", "auto", "auto", "auto"⟩, ⟨1, 2⟩⟩,
   ⟨mkSel "datum", [⟨some "text"⟩],
    ⟨"debit_credit", none, mkSel "soll", mkSel "haben"⟩,
    none, none, none⟩,
   ⟨["yyyy-mm-dd", "dd.mm.yyyy", "dd.mm.yy"], 0⟩,
   ⟨true⟩⟩

/-- A template whose header row lies beyond a one-row file. -/
def fixtureTemplateHighHeader : MappingTemplate :=
  ⟨⟨"csv", ⟨";", "auto", "auto", "auto"⟩, ⟨5, 6⟩⟩,
   ⟨mkSel "datum", [⟨some "text"⟩], ⟨"signed", mkSel "betrag", none, none⟩,
    none, none, none⟩,
   ⟨["yyyy-mm-dd", "dd.mm.yyyy", "dd.mm.yy"], 0⟩,
   ⟨true⟩⟩

/-- C10: for every input whose trimmed text matches `\d{4}-\d{2}-\d{2}`
exactly, `_parse_date_to_iso` returns the trimmed text verbatim, regardless
of the configured date formats and without validating month or day ranges. -/
theorem C10_iso_fast_path (s : String) (fmts : List String)
    (h : isIsoShape (pyStrip s) = true) :
    parse_date_to_iso s fmts = some (pyStrip s) := by
  have hne : pyStrip s ≠ "" := by
    intro he
    rw [he] at h
    simp [isIsoShape, String.toList] at h
  unfold parse_date_to_iso
  simp [hne, h]

/-- C10 witness: the month/day-invalid text `2024-99-99` is returned
unchanged rather than rejected. -/
theorem C10_witness :
    isIsoShape (pyStrip "2024-99-99") = true ∧
    parse_date_to_iso "2024-99-99" ["dd.mm.yyyy"] = some "2024-99-99" := by
  refine ⟨by decide, ?_⟩
  have h := C10_iso_fast_path "2024-99-99" ["dd.mm.yyyy"] (by decide)
  simpa using h

/-- C7: when the template's header row is out of range for the file, the
call is reported as a single top-level failure: one error record, no
transactions, no postings, nothing partially processed. -/
theorem C7_structural_failure (allRows : List (List String))
    (tmpl : MappingTemplate) (iid sfn : String) (bank : Option String)
    (vat : Bool)
    (h : allRows.length ≤ (max (tmpl.input.table.header_row - 1) 0).toNat) :
    apply_mapping_rows allRows tmpl iid sfn bank vat = headerOutOfRangeResult ∧
    (apply_mapping_rows allRows tmpl iid sfn bank vat).transactions = [] ∧
    (apply_mapping_rows allRows tmpl iid sfn bank vat).postings_draft = [] ∧
    (apply_mapping_rows allRows tmpl iid sfn bank vat).rows_ok = 0 ∧
    (apply_mapping_rows allRows tmpl iid sfn bank vat).rows_error = 1 ∧
    (apply_mapping_rows allRows tmpl iid sfn bank vat).errors =
      [⟨0, [⟨"header_out_of_range", "Header row out of range", none⟩], []⟩] := by
  have he : apply_mapping_rows allRows tmpl iid sfn bank vat =
      headerOutOfRangeResult := by
    unfold apply_mapping_rows
    rw [if_pos h]
  refine ⟨he, ?_, ?_, ?_, ?_, ?_⟩ <;> rw [he] <;> rfl

/-- C7 witness: a one-row file against a template whose header row is 5. -/
theorem C7_witness :
    [["only","row"]].length ≤
      (max (fixtureTemplateHighHeader.input.table.header_row - 1) 0).toNat ∧
    (apply_mapping_rows [["only","row"]] fixtureTemplateHighHeader
        "i" "f" none false).transactions = [] ∧
    (apply_mapping_rows [["only","row"]] fixtureTemplateHighHeader
        "i" "f" none false).rows_error = 1 := by
  refine ⟨by decide, ?_, ?_⟩
  · exact (C7_structural_failure [["only","row"]] fixtureTemplateHighHeader
      "i" "f" none false (by decide)).2.1
  · exact (C7_structural_failure [["only","row"]] fixtureTemplateHighHeader
      "i" "f" none false (by decide)).2.2.2.2.1

/-- C5: every draft posting carries amount `abs(amount_signed)` (0 when the
amount is missing); a positive amount names the bank account as debit with
an empty credit, a negative amount names it as credit with an empty debit,
a zero or missing amount leaves both empty; the label is `text_clean`,
falling back to `text_raw`, falling back to the empty string. -/
theorem C5_posting_derivation (tx : Tx) (bank : String) (vat : Bool) :
    (build_draft_posting tx bank vat).amount = |tx.amount_signed.getD 0| ∧
    (build_draft_posting tx bank vat).debit_account =
      (if 0 < tx.amount_signed.getD 0 then bank else "") ∧
    (build_draft_posting tx bank vat).credit_account =
      (if tx.amount_signed.getD 0 < 0 then bank else "") ∧
    (build_draft_posting tx bank vat).label =
      (match tx.text_clean with
       | some s => if s ≠ "" then s else (if tx.text_raw ≠ "" then tx.text_raw else "")
       | none => if tx.text_raw ≠ "" then tx.text_raw else "") := by
  refine ⟨?_, ?_, ?_, ?_⟩
  · cases h : tx.amount_signed <;> simp [build_draft_posting, h]
  · cases h : tx.amount_signed <;> simp [build_draft_posting, h]
  · cases h : tx.amount_signed <;> simp [build_draft_posting, h]
  · cases hc : tx.text_clean with
    | none => by_cases ht : tx.text_raw = "" <;> simp [build_draft_posting, hc, ht]
    | some s =>
      by_cases ht : tx.text_raw = "" <;> by_cases hs : s = "" <;>
        simp [build_draft_posting, hc, ht, hs]

/-- C3: in `debit_credit` mode the primary resolution is `credit − debit`
when both cells parse, `credit` when only the credit cell parses, `debit`
when only the debit cell parses and is negative (`−debit` otherwise), and
`null` when neither parses. -/
theorem C3_debit_credit_primary (row : Row) (tmpl : MappingTemplate)
    (hmode : tmpl.mapping.amount.mode = "debit_credit") :
    (∀ d c,
      (match truthyOpt (selCol tmpl.mapping.amount.debit_column) with
       | some col => parse_number (safe_get row (some col))
           tmpl.input.csv.decimal_separator tmpl.input.csv.thousands_separator
       | none => none) = some d →
      (match truthyOpt (selCol tmpl.mapping.amount.credit_column) with
       | some col => parse_number (safe_get row (some col))
           tmpl.input.csv.decimal_separator tmpl.input.csv.thousands_separator
       | none => none) = some c →
      primarySigned row tmpl = some (c - d)) ∧
    (∀ c,
      (match truthyOpt (selCol tmpl.mapping.amount.debit_column) with
       | some col => parse_number (safe_get row (some col))
           tmpl.input.csv.decimal_separator tmpl.input.csv.thousands_separator
       | none => none) = none →
      (match truthyOpt (selCol tmpl.mapping.amount.credit_column) with
       | some col => parse_number (safe_get row (some col))
           tmpl.input.csv.decimal_separator tmpl.input.csv.thousands_separator
       | none => none) = some c →
      primarySigned row tmpl = some c) ∧
    (∀ d,
      (match truthyOpt (selCol tmpl.mapping.amount.debit_column) with
       | some col => parse_number (safe_get row (some col))
           tmpl.input.csv.decimal_separator tmpl.input.csv.thousands_separator
       | none => none) = some d →
      (match truthyOpt (selCol tmpl.mapping.amount.credit_column) with
       | some col => parse_number (safe_get row (some col))
           tmpl.input.csv.decimal_separator tmpl.input.csv.thousands_separator
       | none => none) = none →
      primarySigned row tmpl = some (if d < 0 then d else -d)) ∧
    ((match truthyOpt (selCol tmpl.mapping.amount.debit_column) with
      | some col => parse_number (safe_get row (some col))
          tmpl.input.csv.decimal_separator tmpl.input.csv.thousands_separator
      | none => none) = none →
     (match truthyOpt (selCol tmpl.mapping.amount.credit_column) with
      | some col => parse_number (safe_get row (some col))
          tmpl.input.csv.decimal_separator tmpl.input.csv.thousands_separator
      | none => none) = none →
     primarySigned row tmpl = none) := by
  have hne : ¬ (tmpl.mapping.amount.mode = "signed") := by
    rw [hmode]; decide
  unfold primarySigned
  rw [if_neg hne]
  refine ⟨?_, ?_, ?_, ?_⟩
  · intro d c hd hc; rw [hd, hc]
  · intro c hd hc; rw [hd, hc]
  · intro d hd hc; rw [hd, hc]
  · intro hd hc; rw [hd, hc]

/-- C3 witness: a concrete row in `debit_credit` mode, with only the debit
cell parseable and positive, resolves to its negation. -/
theorem C3_witness :
    fixtureTemplateDC.mapping.amount.mode = "debit_credit" ∧
    primarySigned [("soll", "40"), ("haben", "")] fixtureTemplateDC =
      some (-40) := by
  refine ⟨rfl, ?_⟩
  have h := (C3_debit_credit_primary [("soll", "40"), ("haben", "")]
    fixtureTemplateDC rfl).2.2.1 40 (by decide) (by decide)
  simpa using h


/-- The sign/direction agreement predicate of the spec: `CRDT` exactly for
a positive amount, `DBIT` exactly for a negative one, no direction exactly
for a missing or zero amount. -/
def dirInvariant (s : Option ℚ) (d : Option String) : Prop :=
  (d = some "CRDT" ↔ ∃ v, s = some v ∧ 0 < v) ∧
  (d = some "DBIT" ↔ ∃ v, s = some v ∧ v < 0) ∧
  (d = none ↔ s = none ∨ s = some 0)

/-- `signDir` satisfies the sign/direction agreement on present amounts. -/
lemma dirInvariant_some (v : ℚ) : dirInvariant (some v) (signDir v) := by
  unfold dirInvariant
  rcases lt_trichotomy v 0 with h | h | h
  · have h1 : ¬ 0 < v := by linarith
    have h2 : ¬ v = 0 := by linarith
    simp [signDir, h, h1, h2]
  · subst h
    simp [signDir]
  · have h1 : ¬ v < 0 := by linarith
    have h2 : ¬ v = 0 := by linarith
    simp [signDir, h, h1, h2]

/-- The agreement holds vacuously for a missing amount with no direction. -/
lemma dirInvariant_none : dirInvariant none none := by
  refine ⟨?_, ?_, ?_⟩ <;> simp

/-- The amount resolver always returns a direction agreeing with the sign
of the final amount. -/
lemma compute_dirInvariant (row : Row) (hs : List String)
    (tmpl : MappingTemplate) (ps : Option Int) :
    dirInvariant (compute_signed_amount row hs tmpl ps).signed
      (compute_signed_amount row hs tmpl ps).direction := by
  unfold compute_signed_amount
  cases hf : needsFallback (primarySigned row tmpl) with
  | true =>
    simp only [hf, if_true]
    cases hscan : fallbackScan row tmpl (find_amount_fallback hs) with
    | some vh =>
      simp only [hscan]
      by_cases hp : ps = some 1 ∨ ps = some (-1) <;> simp only [hp] <;>
        simpa using dirInvariant_some _
    | none =>
      cases hp : primarySigned row tmpl with
      | none => simp only [hscan, hp]; exact dirInvariant_none
      | some v =>
        simp only [hscan, hp]
        by_cases hps : ps = some 1 ∨ ps = some (-1) <;> simp only [hps] <;>
          simpa using dirInvariant_some _
  | false =>
    simp only [hf, Bool.false_eq_true, if_false]
    cases hp : primarySigned row tmpl with
    | none => rw [hp] at hf; simp [needsFallback] at hf
    | some v => exact dirInvariant_some v

/-- The row index recorded by the transaction builder. -/
lemma mkTx_row_index (cfg : ApplyCfg) (idx : Int) (r : Row) :
    (mkTx cfg idx r).row_index = idx := rfl

/-- The raw cells recorded by the transaction builder. -/
lemma mkTx_raw (cfg : ApplyCfg) (idx : Int) (r : Row) :
    (mkTx cfg idx r).raw = r := rfl

/-- The amount recorded by the transaction builder comes straight from the
amount resolver. -/
lemma mkTx_amount (cfg : ApplyCfg) (idx : Int) (r : Row) :
    (mkTx cfg idx r).amount_signed =
      (compute_signed_amount r cfg.headers_norm cfg.tmpl none).signed := rfl

/-- The direction recorded by the transaction builder comes straight from
the amount resolver. -/
lemma mkTx_direction (cfg : ApplyCfg) (idx : Int) (r : Row) :
    (mkTx cfg idx r).direction =
      (compute_signed_amount r cfg.headers_norm cfg.tmpl none).direction := rfl

/-- The status is `error` exactly when some issue was recorded. -/
lemma mkTx_status_error_iff (cfg : ApplyCfg) (idx : Int) (r : Row) :
    ((mkTx cfg idx r).status = "error" ↔ (mkTx cfg idx r).issues ≠ []) := by
  have h : (mkTx cfg idx r).status =
      (if (mkTx cfg idx r).issues = [] then "ok" else "error") := rfl
  rw [h]
  by_cases hi : (mkTx cfg idx r).issues = [] <;> simp [hi]

/-- Every transaction accumulated by the row loop is the builder's output
for the row at some position, indexed from the loop's starting index. -/
lemma procAll_txs_shape (cfg : ApplyCfg) (mf : Int) (bank : Option String)
    (vat : Bool) :
    ∀ (rows : List Row) (idx : Int),
      ∀ t ∈ (procAll cfg mf bank vat idx rows).txs,
        ∃ k, k < rows.length ∧ t = mkTx cfg (idx + k) (rows.getD k default) := by
  intro rows
  induction rows with
  | nil => intro idx t ht; simp [procAll] at ht
  | cons r rs ih =>
    intro idx t ht
    rw [procAll] at ht
    by_cases hc : (mkTx cfg idx r).status = "error" ∧ mf = 0
    · rw [if_pos hc] at ht
      obtain ⟨k, hk, he⟩ := ih (idx + 1) t ht
      refine ⟨k + 1, by simpa using Nat.succ_lt_succ hk, ?_⟩
      rw [he, List.getD_cons_succ]
      congr 1
      push_cast
      ring
    · rw [if_neg hc] at ht
      rcases List.mem_cons.mp ht with he | ht'
      · exact ⟨0, by simp, by simpa using he⟩
      · obtain ⟨k, hk, he⟩ := ih (idx + 1) t ht'
        refine ⟨k + 1, by simpa using Nat.succ_lt_succ hk, ?_⟩
        rw [he, List.getD_cons_succ]
        congr 1
        push_cast
        ring

/-- C2: for every canonical transaction produced by the apply pipeline,
`direction` is `CRDT` iff the signed amount is present and positive,
`DBIT` iff present and negative, and absent iff the amount is missing or
zero. -/
theorem C2_sign_direction_invariant (allRows : List (List String))
    (tmpl : MappingTemplate) (iid sfn : String) (bank : Option String)
    (vat : Bool) :
    ∀ tx ∈ (apply_mapping_rows allRows tmpl iid sfn bank vat).transactions,
      (tx.direction = some "CRDT" ↔ ∃ v, tx.amount_signed = some v ∧ 0 < v) ∧
      (tx.direction = some "DBIT" ↔ ∃ v, tx.amount_signed = some v ∧ v < 0) ∧
      (tx.direction = none ↔
        tx.amount_signed = none ∨ tx.amount_signed = some 0) := by
  intro tx htx
  unfold apply_mapping_rows at htx
  by_cases hh : allRows.length ≤ (max (tmpl.input.table.header_row - 1) 0).toNat
  · rw [if_pos hh] at htx
    simp [headerOutOfRangeResult] at htx
  · rw [if_neg hh] at htx
    obtain ⟨k, _, he⟩ := procAll_txs_shape _ _ _ _ _ _ tx htx
    subst he
    rw [mkTx_amount, mkTx_direction]
    exact compute_dirInvariant _ _ _ _

/-- Under the default error policy, every transaction kept by the row loop
additionally has a non-error status. -/
lemma procAll_txs_shape_ok (cfg : ApplyCfg) (bank : Option String)
    (vat : Bool) :
    ∀ (rows : List Row) (idx : Int),
      ∀ t ∈ (procAll cfg 0 bank vat idx rows).txs,
        ∃ k, k < rows.length ∧ t = mkTx cfg (idx + k) (rows.getD k default) ∧
          ¬ (mkTx cfg (idx + k) (rows.getD k default)).status = "error" := by
  intro rows
  induction rows with
  | nil => intro idx t ht; simp [procAll] at ht
  | cons r rs ih =>
    intro idx t ht
    rw [procAll] at ht
    by_cases hc : (mkTx cfg idx r).status = "error" ∧ (0 : Int) = 0
    · rw [if_pos hc] at ht
      obtain ⟨k, hk, he, hok⟩ := ih (idx + 1) t ht
      refine ⟨k + 1, by simpa using Nat.succ_lt_succ hk, ?_, ?_⟩
      · rw [he, List.getD_cons_succ]
        congr 1
        push_cast
        ring
      · have : idx + 1 + (k : Int) = idx + ((k : Int) + 1) := by ring
        simpa [List.getD_cons_succ, this] using hok
    · rw [if_neg hc] at ht
      rcases List.mem_cons.mp ht with he | ht'
      · refine ⟨0, by simp, by simpa using he, ?_⟩
        intro hst
        exact hc ⟨by simpa using hst, rfl⟩
      · obtain ⟨k, hk, he, hok⟩ := ih (idx + 1) t ht'
        refine ⟨k + 1, by simpa using Nat.succ_lt_succ hk, ?_, ?_⟩
        · rw [he, List.getD_cons_succ]
          congr 1
          push_cast
          ring
        · have : idx + 1 + (k : Int) = idx + ((k : Int) + 1) := by ring
          simpa [List.getD_cons_succ, this] using hok

/-- Every error record produced by the row loop belongs to the row at some
position: it carries that row's index, issues and raw cells, and that row's
transaction has error status. -/
lemma procAll_err_shape (cfg : ApplyCfg) (mf : Int) (bank : Option String)
    (vat : Bool) :
    ∀ (rows : List Row) (idx : Int),
      ∀ e ∈ (procAll cfg mf bank vat idx rows).errs,
        ∃ k, k < rows.length ∧
          e = ⟨idx + k, (mkTx cfg (idx + k) (rows.getD k default)).issues,
            rows.getD k default⟩ ∧
          (mkTx cfg (idx + k) (rows.getD k default)).status = "error" := by
  intro rows
  induction rows with
  | nil => intro idx e he; simp [procAll] at he
  | cons r rs ih =>
    intro idx e he
    rw [procAll] at he
    by_cases hc : (mkTx cfg idx r).status = "error" ∧ mf = 0
    · rw [if_pos hc] at he
      rcases List.mem_cons.mp he with hh | he'
      · exact ⟨0, by simp, by simpa using hh, by simpa using hc.1⟩
      · obtain ⟨k, hk, hee, hst⟩ := ih (idx + 1) e he'
        refine ⟨k + 1, by simpa using Nat.succ_lt_succ hk, ?_, ?_⟩
        · have : idx + 1 + (k : Int) = idx + ((k : Int) + 1) := by ring
          simpa [List.getD_cons_succ, this] using hee
        · have : idx + 1 + (k : Int) = idx + ((k : Int) + 1) := by ring
          simpa [List.getD_cons_succ, this] using hst
    · rw [if_neg hc] at he
      obtain ⟨k, hk, hee, hst⟩ := ih (idx + 1) e he
      refine ⟨k + 1, by simpa using Nat.succ_lt_succ hk, ?_, ?_⟩
      · have : idx + 1 + (k : Int) = idx + ((k : Int) + 1) := by ring
        simpa [List.getD_cons_succ, this] using hee
      · have : idx + 1 + (k : Int) = idx + ((k : Int) + 1) := by ring
        simpa [List.getD_cons_succ, this] using hst

/-- Under the default error policy, the transaction of every non-error row
is kept in the transaction list. -/
lemma procAll_tx_mem_of_ok (cfg : ApplyCfg) (bank : Option String)
    (vat : Bool) :
    ∀ (rows : List Row) (idx : Int) (k : Nat), k < rows.length →
      ¬ (mkTx cfg (idx + k) (rows.getD k default)).status = "error" →
      mkTx cfg (idx + k) (rows.getD k default) ∈
        (procAll cfg 0 bank vat idx rows).txs := by
  intro rows
  induction rows with
  | nil => intro idx k hk; simp at hk
  | cons r rs ih =>
    intro idx k hk hok
    rw [procAll]
    cases k with
    | zero =>
      have hc : ¬ ((mkTx cfg idx r).status = "error" ∧ (0 : Int) = 0) := by
        intro hc
        exact hok (by simpa using hc.1)
      rw [if_neg hc]
      simp
    | succ k =>
      have harg : idx + ((k : Int) + 1) = idx + 1 + (k : Int) := by ring
      have hmem : mkTx cfg (idx + 1 + k) (rs.getD k default) ∈
          (procAll cfg 0 bank vat (idx + 1) rs).txs := by
        refine ih (idx + 1) k (by simpa using Nat.lt_of_succ_lt_succ hk) ?_
        intro hst
        apply hok
        push_cast
        rw [harg]
        simpa [List.getD_cons_succ] using hst
      by_cases hc : (mkTx cfg idx r).status = "error" ∧ (0 : Int) = 0
      · rw [if_pos hc]
        push_cast
        rw [harg]
        simpa [List.getD_cons_succ] using hmem
      · rw [if_neg hc]
        refine List.mem_cons_of_mem _ ?_
        push_cast
        rw [harg]
        simpa [List.getD_cons_succ] using hmem

/-- Every error record's row index is at least the loop's starting index. -/
lemma procAll_err_index_ge (cfg : ApplyCfg) (mf : Int) (bank : Option String)
    (vat : Bool) (rows : List Row) (idx : Int) :
    ∀ e ∈ (procAll cfg mf bank vat idx rows).errs, idx ≤ e.row_index := by
  intro e he
  obtain ⟨k, _, hee, _⟩ := procAll_err_shape cfg mf bank vat rows idx e he
  rw [hee]
  have hk : (0 : Int) ≤ (k : Int) := by positivity
  show idx ≤ idx + (k : Int)
  omega

/-- Distinct error records carry distinct row indices. -/
lemma procAll_err_pairwise (cfg : ApplyCfg) (mf : Int) (bank : Option String)
    (vat : Bool) :
    ∀ (rows : List Row) (idx : Int),
      (procAll cfg mf bank vat idx rows).errs.Pairwise
        (fun a b => a.row_index ≠ b.row_index) := by
  intro rows
  induction rows with
  | nil => intro idx; simp [procAll]
  | cons r rs ih =>
    intro idx
    rw [procAll]
    by_cases hc : (mkTx cfg idx r).status = "error" ∧ mf = 0
    · rw [if_pos hc]
      refine List.Pairwise.cons ?_ (ih (idx + 1))
      intro b hb
      have := procAll_err_index_ge cfg mf bank vat rs (idx + 1) b hb
      show idx ≠ b.row_index
      omega
    · rw [if_neg hc]
      exact ih (idx + 1)

/-- Under the default error policy, the error row at each position yields
its error record in the report. -/
lemma procAll_err_mem_of_error (cfg : ApplyCfg) (bank : Option String)
    (vat : Bool) :
    ∀ (rows : List Row) (idx : Int) (k : Nat), k < rows.length →
      (mkTx cfg (idx + k) (rows.getD k default)).status = "error" →
      (⟨idx + k, (mkTx cfg (idx + k) (rows.getD k default)).issues,
        rows.getD k default⟩ : ErrRec) ∈
        (procAll cfg 0 bank vat idx rows).errs := by
  intro rows
  induction rows with
  | nil => intro idx k hk; simp at hk
  | cons r rs ih =>
    intro idx k hk hst
    rw [procAll]
    cases k with
    | zero =>
      have hc : (mkTx cfg idx r).status = "error" ∧ (0 : Int) = 0 :=
        ⟨by simpa using hst, rfl⟩
      rw [if_pos hc]
      simp
    | succ k =>
      have harg : idx + ((k : Int) + 1) = idx + 1 + (k : Int) := by ring
      have hst' : (mkTx cfg (idx + 1 + k) (rs.getD k default)).status =
          "error" := by
        push_cast at hst
        rw [harg] at hst
        simpa [List.getD_cons_succ] using hst
      have hmem := ih (idx + 1) k (by simpa using Nat.lt_of_succ_lt_succ hk)
        hst'
      by_cases hc : (mkTx cfg idx r).status = "error" ∧ (0 : Int) = 0
      · rw [if_pos hc]
        refine List.mem_cons_of_mem _ ?_
        push_cast
        rw [harg]
        simpa [List.getD_cons_succ] using hmem
      · rw [if_neg hc]
        push_cast
        rw [harg]
        simpa [List.getD_cons_succ] using hmem

/-- In a list of error records with pairwise-distinct row indices, exactly
one record carries the row index of any member. -/
lemma countP_row_index_eq_one {l : List ErrRec}
    (hp : l.Pairwise (fun a b => a.row_index ≠ b.row_index)) {e : ErrRec}
    (he : e ∈ l) :
    l.countP (fun x => x.row_index == e.row_index) = 1 := by
  induction l with
  | nil => simp at he
  | cons a l ih =>
    rcases List.pairwise_cons.mp hp with ⟨ha, hl⟩
    rcases List.mem_cons.mp he with rfl | he'
    · simp only [List.countP_cons, beq_self_eq_true, if_pos]
      have hz : l.countP (fun x => x.row_index == e.row_index) = 0 := by
        refine List.countP_eq_zero.mpr ?_
        intro b hb
        simp only [beq_iff_eq]
        exact fun hcontra => (ha b hb) hcontra.symm
      simp [hz]
    · have h1 := ih hl he'
      have hne : ¬ (a.row_index == e.row_index) = true := by
        simp only [beq_iff_eq]
        exact ha e he'
      simp [List.countP_cons, h1, hne]

/-- C6: under the default configuration (`max_parse_errors_before_fail == 0`)
and an in-range header row, every processed row with a non-empty issues list
gets status `error`, is excluded from the transactions, and appears exactly
once in the error report carrying its raw cells and issues; every row with
no issues appears in the transactions; `rows_ok` and `rows_error` equal the
lengths of the two lists. -/
theorem C6_error_containment (allRows : List (List String))
    (tmpl : MappingTemplate) (iid sfn : String) (bank : Option String)
    (vat : Bool)
    (hmf : tmpl.validation.max_parse_errors_before_fail = 0)
    (hin : ¬ (allRows.length ≤ (max (tmpl.input.table.header_row - 1) 0).toNat)) :
    (apply_mapping_rows allRows tmpl iid sfn bank vat).rows_ok =
      (apply_mapping_rows allRows tmpl iid sfn bank vat).transactions.length ∧
    (apply_mapping_rows allRows tmpl iid sfn bank vat).rows_error =
      (apply_mapping_rows allRows tmpl iid sfn bank vat).errors.length ∧
    (∀ k : Nat, k < (processedRows allRows tmpl).length →
      ((mkTx (mkApplyCfg allRows tmpl iid sfn)
          (tmpl.input.table.data_start_row + k)
          ((processedRows allRows tmpl).getD k default)).issues ≠ [] →
        (mkTx (mkApplyCfg allRows tmpl iid sfn)
          (tmpl.input.table.data_start_row + k)
          ((processedRows allRows tmpl).getD k default)).status = "error" ∧
        (∀ t ∈ (apply_mapping_rows allRows tmpl iid sfn bank vat).transactions,
          t.row_index ≠ tmpl.input.table.data_start_row + k) ∧
        ((apply_mapping_rows allRows tmpl iid sfn bank vat).errors.countP
          (fun e => e.row_index == tmpl.input.table.data_start_row + k)) = 1 ∧
        (∀ e ∈ (apply_mapping_rows allRows tmpl iid sfn bank vat).errors,
          e.row_index = tmpl.input.table.data_start_row + k →
          e.raw = (processedRows allRows tmpl).getD k default ∧
          e.issues = (mkTx (mkApplyCfg allRows tmpl iid sfn)
            (tmpl.input.table.data_start_row + k)
            ((processedRows allRows tmpl).getD k default)).issues)) ∧
      ((mkTx (mkApplyCfg allRows tmpl iid sfn)
          (tmpl.input.table.data_start_row + k)
          ((processedRows allRows tmpl).getD k default)).issues = [] →
        mkTx (mkApplyCfg allRows tmpl iid sfn)
          (tmpl.input.table.data_start_row + k)
          ((processedRows allRows tmpl).getD k default) ∈
          (apply_mapping_rows allRows tmpl iid sfn bank vat).transactions)) := by
  have htx : (apply_mapping_rows allRows tmpl iid sfn bank vat).transactions =
      (procAll (mkApplyCfg allRows tmpl iid sfn) 0 bank vat
        tmpl.input.table.data_start_row (processedRows allRows tmpl)).txs := by
    unfold apply_mapping_rows
    rw [if_neg hin, hmf]
  have herr : (apply_mapping_rows allRows tmpl iid sfn bank vat).errors =
      (procAll (mkApplyCfg allRows tmpl iid sfn) 0 bank vat
        tmpl.input.table.data_start_row (processedRows allRows tmpl)).errs := by
    unfold apply_mapping_rows
    rw [if_neg hin, hmf]
  have hok : (apply_mapping_rows allRows tmpl iid sfn bank vat).rows_ok =
      (procAll (mkApplyCfg allRows tmpl iid sfn) 0 bank vat
        tmpl.input.table.data_start_row (processedRows allRows tmpl)).txs.length := by
    unfold apply_mapping_rows
    rw [if_neg hin, hmf]
  have hre : (apply_mapping_rows allRows tmpl iid sfn bank vat).rows_error =
      (procAll (mkApplyCfg allRows tmpl iid sfn) 0 bank vat
        tmpl.input.table.data_start_row (processedRows allRows tmpl)).errs.length := by
    unfold apply_mapping_rows
    rw [if_neg hin, hmf]
  refine ⟨by rw [hok, htx], by rw [hre, herr], ?_⟩
  intro k hk
  constructor
  · intro hiss
    have hst : (mkTx (mkApplyCfg allRows tmpl iid sfn)
        (tmpl.input.table.data_start_row + k)
        ((processedRows allRows tmpl).getD k default)).status = "error" :=
      (mkTx_status_error_iff _ _ _).mpr hiss
    refine ⟨hst, ?_, ?_, ?_⟩
    · intro t ht
      rw [htx] at ht
      obtain ⟨j, hj, htj, hokj⟩ :=
        procAll_txs_shape_ok _ bank vat _ _ t ht
      rw [htj, mkTx_row_index]
      intro hcontra
      have hjk : j = k := by
        have : (j : Int) = (k : Int) := by omega
        exact_mod_cast this
      subst hjk
      exact hokj hst
    · rw [herr]
      have hmem := procAll_err_mem_of_error _ bank vat _
        tmpl.input.table.data_start_row k hk hst
      have hp := procAll_err_pairwise (mkApplyCfg allRows tmpl iid sfn) 0
        bank vat (processedRows allRows tmpl) tmpl.input.table.data_start_row
      exact countP_row_index_eq_one hp hmem
    · intro e hee heidx
      rw [herr] at hee
      obtain ⟨j, hj, hej, _⟩ := procAll_err_shape _ 0 bank vat _ _ e hee
      rw [hej] at heidx
      have hjk : j = k := by
        have : tmpl.input.table.data_start_row + (j : Int) =
            tmpl.input.table.data_start_row + (k : Int) := heidx
        have : (j : Int) = (k : Int) := by omega
        exact_mod_cast this
      subst hjk
      rw [hej]
      exact ⟨rfl, rfl⟩
  · intro hiss
    rw [htx]
    refine procAll_tx_mem_of_ok _ bank vat _ _ k hk ?_
    rw [mkTx_status_error_iff]
    exact fun hc => hc hiss

/-- A small file: header, one dated row, one blank row, one more dated row.
The blank physical row 3 is skipped by the extractor. -/
def fixtureRows : List (List String) :=
  [["datum", "text", "betrag"],
   ["2024-01-02", "a", "5"],
   ["", ""],
   ["2024-01-03", "b", "7"]]

/-- A small file whose last data row has an unparseable date. -/
def fixtureRowsErr : List (List String) :=
  [["datum", "text", "betrag"],
   ["2024-01-02", "a", "5"],
   ["notadate", "b", "7"]]

/-- C8 (amended): every emitted transaction or error record carries
`row_index = data_start_row + k` where `k` is the row's 0-based position in
the processed row stream (after blank-row skipping and compound-row
rewriting), and its raw cells are that processed row — not necessarily the
physical position in the original file. -/
theorem C8_amended_row_index (allRows : List (List String))
    (tmpl : MappingTemplate) (iid sfn : String) (bank : Option String)
    (vat : Bool)
    (hin : ¬ (allRows.length ≤ (max (tmpl.input.table.header_row - 1) 0).toNat)) :
    (∀ t ∈ (apply_mapping_rows allRows tmpl iid sfn bank vat).transactions,
      ∃ k, k < (processedRows allRows tmpl).length ∧
        t.row_index = tmpl.input.table.data_start_row + k ∧
        t.raw = (processedRows allRows tmpl).getD k default) ∧
    (∀ e ∈ (apply_mapping_rows allRows tmpl iid sfn bank vat).errors,
      ∃ k, k < (processedRows allRows tmpl).length ∧
        e.row_index = tmpl.input.table.data_start_row + k ∧
        e.raw = (processedRows allRows tmpl).getD k default) := by
  have htx : (apply_mapping_rows allRows tmpl iid sfn bank vat).transactions =
      (procAll (mkApplyCfg allRows tmpl iid sfn)
        tmpl.validation.max_parse_errors_before_fail bank vat
        tmpl.input.table.data_start_row (processedRows allRows tmpl)).txs := by
    unfold apply_mapping_rows
    rw [if_neg hin]
  have herr : (apply_mapping_rows allRows tmpl iid sfn bank vat).errors =
      (procAll (mkApplyCfg allRows tmpl iid sfn)
        tmpl.validation.max_parse_errors_before_fail bank vat
        tmpl.input.table.data_start_row (processedRows allRows tmpl)).errs := by
    unfold apply_mapping_rows
    rw [if_neg hin]
  constructor
  · intro t ht
    rw [htx] at ht
    obtain ⟨k, hk, he⟩ := procAll_txs_shape _ _ bank vat _ _ t ht
    exact ⟨k, hk, by rw [he, mkTx_row_index], by rw [he, mkTx_raw]⟩
  · intro e hee
    rw [herr] at hee
    obtain ⟨k, hk, he, _⟩ := procAll_err_shape _ _ bank vat _ _ e hee
    exact ⟨k, hk, by rw [he], by rw [he]⟩

/-- C8 counterexample: in `fixtureRows` the blank physical row 3 is
skipped, so the transaction whose raw cells come from physical row 4
(1-based, counted in the original file) is reported with `row_index` 3 —
the claimed original-file index 4 does not match what the code emits. -/
theorem C8_counterexample :
    fixtureRows.getD 3 [] = ["2024-01-03", "b", "7"] ∧
    ((apply_mapping_rows fixtureRows fixtureTemplate "imp" "f.csv" none
        false).transactions.getD 1 default).raw =
      buildRowObj ["datum", "text", "betrag"] ["2024-01-03", "b", "7"] ∧
    ((apply_mapping_rows fixtureRows fixtureTemplate "imp" "f.csv" none
        false).transactions.getD 1 default).row_index = 3 ∧
    (3 : Int) ≠ 4 := by
  refine ⟨by decide, by decide, by decide, by decide⟩

/-- C8 witness for the amended claim: the concrete run on `fixtureRows`. -/
theorem C8_amended_witness :
    (¬ (fixtureRows.length ≤
      (max (fixtureTemplate.input.table.header_row - 1) 0).toNat)) ∧
    (∀ t ∈ (apply_mapping_rows fixtureRows fixtureTemplate "imp" "f.csv"
        none false).transactions,
      ∃ k, k < (processedRows fixtureRows fixtureTemplate).length ∧
        t.row_index = fixtureTemplate.input.table.data_start_row + k ∧
        t.raw = (processedRows fixtureRows fixtureTemplate).getD k default) :=
  ⟨by decide,
   (C8_amended_row_index fixtureRows fixtureTemplate "imp" "f.csv" none false
     (by decide)).1⟩

/-- C2 witness: a concrete produced transaction satisfies the
sign/direction agreement. -/
theorem C2_witness :
    ((apply_mapping_rows fixtureRows fixtureTemplate "imp" "f.csv" none
        false).transactions.getD 0 default ∈
      (apply_mapping_rows fixtureRows fixtureTemplate "imp" "f.csv" none
        false).transactions) ∧
    (((apply_mapping_rows fixtureRows fixtureTemplate "imp" "f.csv" none
        false).transactions.getD 0 default).direction = some "CRDT" ↔
      ∃ v, ((apply_mapping_rows fixtureRows fixtureTemplate "imp" "f.csv" none
        false).transactions.getD 0 default).amount_signed = some v ∧ 0 < v) :=
  ⟨by decide,
   (C2_sign_direction_invariant fixtureRows fixtureTemplate "imp" "f.csv"
     none false _ (by decide)).1⟩

/-- C6 witness: the concrete run on `fixtureRowsErr`, whose last row has an
unparseable date. -/
theorem C6_witness :
    fixtureRowsErr.length = 3 ∧
    fixtureTemplate.validation.max_parse_errors_before_fail = 0 ∧
    (¬ (fixtureRowsErr.length ≤
      (max (fixtureTemplate.input.table.header_row - 1) 0).toNat)) ∧
    (apply_mapping_rows fixtureRowsErr fixtureTemplate "imp" "f.csv" none
        false).rows_ok =
      (apply_mapping_rows fixtureRowsErr fixtureTemplate "imp" "f.csv" none
        false).transactions.length ∧
    (apply_mapping_rows fixtureRowsErr fixtureTemplate "imp" "f.csv" none
        false).rows_error =
      (apply_mapping_rows fixtureRowsErr fixtureTemplate "imp" "f.csv" none
        false).errors.length :=
  ⟨rfl, rfl, by decide,
   (C6_error_containment fixtureRowsErr fixtureTemplate "imp" "f.csv" none
     false rfl (by decide)).1,
   (C6_error_containment fixtureRowsErr fixtureTemplate "imp" "f.csv" none
     false rfl (by decide)).2.1⟩


/-- Writing the date cell and then erasing the date key gives the same
record as erasing the date key directly. -/
lemma eraseKey_setCell (r : Row) (k v : String) :
    eraseKey k (setCell r k v) = eraseKey k r := by
  induction r with
  | nil => simp [setCell, eraseKey, List.eraseP]
  | cons kv rest ih =>
    obtain ⟨k', v'⟩ := kv
    by_cases h : k' = k
    · subst h
      simp [setCell, eraseKey, List.eraseP_cons]
    · simp only [setCell, if_neg h, eraseKey, List.eraseP_cons] at ih ⊢
      simp [h, ih]

/-- Erasing one key leaves lookups of every other key unchanged. -/
lemma rowLookup_eraseKey (r : Row) (dc k : String) (hne : k ≠ dc) :
    rowLookup (eraseKey dc r) k = rowLookup r k := by
  induction r with
  | nil => rfl
  | cons kv rest ih =>
    obtain ⟨k', v'⟩ := kv
    by_cases h : k' = dc
    · subst h
      have hk : ¬ (k' = k) := fun hc => hne hc.symm
      simp [eraseKey, List.eraseP_cons, rowLookup, List.find?, hk]
    · by_cases hk : k' = k
      · subst hk
        simp [eraseKey, List.eraseP_cons, rowLookup, List.find?, h, hne]
      · simp only [eraseKey, List.eraseP_cons] at ih ⊢
        simp only [rowLookup] at ih
        simp [rowLookup, List.find?, h, hk, ih]

/-- The carry-forward post-pass only rewrites the date cell: erased of the
date key, its output equals its input. -/
lemma carryForward_map_erase (dc : String) :
    ∀ (last : Option String) (l : List Row),
      (carryForward dc last l).map (eraseKey dc) = l.map (eraseKey dc) := by
  intro last l
  induction l generalizing last with
  | nil => rfl
  | cons r rs ih =>
    rw [carryForward.eq_def]
    simp only []
    by_cases h1 : (safe_get r (some dc) ≠ "" ∧
        looks_like_date (safe_get r (some dc)))
    · rw [if_pos h1]
      simp [ih]
    · rw [if_neg h1]
      by_cases h2 : safe_get r (some dc) = ""
      · rw [if_pos h2]
        cases last with
        | none => simp [ih]
        | some ld => simp [ih, eraseKey_setCell]
      · rw [if_neg h2]
        simp [ih]

/-- The expansion pass only deletes rows (rejected-group parents are kept,
accepted-group parents are dropped in favour of their children) and only
rewrites the date cell: erased of the date key, its output is a sublist of
its input. -/
lemma expandLoopFuel_map_erase_sublist (dc : String) (tc hs : List String)
    (tmpl : MappingTemplate) :
    ∀ (fuel : Nat) (rows : List Row),
      List.Sublist ((expandLoopFuel dc tc hs tmpl fuel rows).map (eraseKey dc))
        (rows.map (eraseKey dc)) := by
  intro fuel
  induction fuel with
  | zero =>
    intro rows
    cases rows <;> simp [expandLoopFuel]
  | succ fuel ih =>
    intro rows
    cases rows with
    | nil => simp [expandLoopFuel]
    | cons r rest =>
      rw [expandLoopFuel.eq_def]
      simp only []
      by_cases hd : rowIsDated dc r = true
      · rw [if_pos hd]
        cases hpa : (compute_signed_amount r hs tmpl none).signed with
        | none =>
          simp only [hpa, List.map_cons]
          exact List.Sublist.cons₂ _ (ih rest)
        | some pa =>
          simp only [hpa]
          by_cases hc1 : ((rest.takeWhile
              (fun rr => ¬ rowIsDated dc rr)).filter rowNonBlank ≠ [] ∧
              is_group_parent (if tc ≠ [] then compose_text r tc else "") =
                true ∧
              |pa| > mkRat 1 1000000000)
          · rw [if_pos hc1]
            by_cases hc2 : (childAmounts
                (((rest.takeWhile (fun rr => ¬ rowIsDated dc rr)).filter
                  rowNonBlank).map
                  (fun c => setCell c dc (safe_get r (some dc)))) hs tmpl
                (if 0 < pa then 1 else -1) ≠ [] ∧
                |(childAmounts
                  (((rest.takeWhile (fun rr => ¬ rowIsDated dc rr)).filter
                    rowNonBlank).map
                    (fun c => setCell c dc (safe_get r (some dc)))) hs tmpl
                  (if 0 < pa then 1 else -1)).sum - pa| ≤ mkRat 2 100)
            · rw [if_pos hc2]
              rw [List.map_append]
              have hfix : ((((rest.takeWhile
                  (fun rr => ¬ rowIsDated dc rr)).filter rowNonBlank).map
                  (fun c => setCell c dc (safe_get r (some dc)))).map
                  (eraseKey dc)) =
                  (((rest.takeWhile (fun rr => ¬ rowIsDated dc rr)).filter
                    rowNonBlank).map (eraseKey dc)) := by
                rw [List.map_map]
                refine List.map_congr_left ?_
                intro c _
                exact eraseKey_setCell c dc (safe_get r (some dc))
              rw [hfix]
              have h1 : List.Sublist
                  ((((rest.takeWhile (fun rr => ¬ rowIsDated dc rr)).filter
                    rowNonBlank)).map (eraseKey dc))
                  ((rest.takeWhile (fun rr => ¬ rowIsDated dc rr)).map
                    (eraseKey dc)) :=
                List.Sublist.map _ (List.filter_sublist _)
              have h2 := ih (rest.dropWhile (fun rr => ¬ rowIsDated dc rr))
              have h3 := List.Sublist.append h1 h2
              have h4 : ((rest.takeWhile (fun rr => ¬ rowIsDated dc rr)).map
                    (eraseKey dc)) ++
                  ((rest.dropWhile (fun rr => ¬ rowIsDated dc rr)).map
                    (eraseKey dc)) = rest.map (eraseKey dc) := by
                rw [← List.map_append, List.takeWhile_append_dropWhile]
              rw [h4] at h3
              exact List.Sublist.cons _ h3
            · rw [if_neg hc2]
              simp only [List.map_cons]
              exact List.Sublist.cons₂ _ (ih rest)
          · rw [if_neg hc1]
            simp only [List.map_cons]
            exact List.Sublist.cons₂ _ (ih rest)
      · rw [if_neg hd]
        simp only [List.map_cons]
        exact List.Sublist.cons₂ _ (ih rest)

/-- C9: the compound-row expander is the identity when the template has no
truthy date-column selector; otherwise every output row agrees with some
input row on every column except the date column, and the output (modulo
the date cell) is a sublist of the input — rows keep their relative order
and only the date cell is ever rewritten. -/
theorem C9_frame_property (rows : List Row) (hs : List String)
    (tmpl : MappingTemplate) :
    (truthyOpt (selCol tmpl.mapping.date_column) = none →
      expand_compound_rows rows hs tmpl = rows) ∧
    (∀ dc, truthyOpt (selCol tmpl.mapping.date_column) = some dc →
      List.Sublist ((expand_compound_rows rows hs tmpl).map (eraseKey dc))
        (rows.map (eraseKey dc)) ∧
      (∀ o ∈ expand_compound_rows rows hs tmpl, ∃ r ∈ rows,
        ∀ k, k ≠ dc → rowLookup o k = rowLookup r k)) := by
  constructor
  · intro h
    unfold expand_compound_rows
    rw [h]
  · intro dc hdc
    have hexp : expand_compound_rows rows hs tmpl =
        carryForward dc none
          (expandLoop dc (collectTextCols tmpl.mapping) hs tmpl rows) := by
      unfold expand_compound_rows
      rw [hdc]
    have hsub : List.Sublist
        ((expand_compound_rows rows hs tmpl).map (eraseKey dc))
        (rows.map (eraseKey dc)) := by
      rw [hexp, carryForward_map_erase]
      exact expandLoopFuel_map_erase_sublist dc _ hs tmpl rows.length rows
    refine ⟨hsub, ?_⟩
    intro o ho
    have hoe : eraseKey dc o ∈ (expand_compound_rows rows hs tmpl).map
        (eraseKey dc) := List.mem_map_of_mem _ ho
    have hoe' : eraseKey dc o ∈ rows.map (eraseKey dc) :=
      hsub.subset hoe
    obtain ⟨r, hr, hre⟩ := List.mem_map.mp hoe'
    refine ⟨r, hr, ?_⟩
    intro k hk
    calc rowLookup o k = rowLookup (eraseKey dc o) k :=
        (rowLookup_eraseKey o dc k hk).symm
      _ = rowLookup (eraseKey dc r) k := by rw [hre]
      _ = rowLookup r k := rowLookup_eraseKey r dc k hk

/-- Two concrete rows forming an accepted compound group. -/
def fixtureGroupRows : List Row :=
  [[("datum", "2024-01-05"), ("text", "Sammelbuchung (2)"), ("betrag", "30")],
   [("datum", ""), ("text", "x"), ("betrag", "30")]]

/-- C9 witness: the frame property at a concrete expansion that actually
replaces a parent row by its date-filled child. -/
theorem C9_witness :
    truthyOpt (selCol fixtureTemplate.mapping.date_column) = some "datum" ∧
    (List.Sublist
      ((expand_compound_rows fixtureGroupRows ["datum", "text", "betrag"]
        fixtureTemplate).map (eraseKey "datum"))
      (fixtureGroupRows.map (eraseKey "datum")) ∧
    (∀ o ∈ expand_compound_rows fixtureGroupRows ["datum", "text", "betrag"]
        fixtureTemplate, ∃ r ∈ fixtureGroupRows,
      ∀ k, k ≠ "datum" → rowLookup o k = rowLookup r k)) :=
  ⟨by decide,
   (C9_frame_property fixtureGroupRows ["datum", "text", "betrag"]
     fixtureTemplate).2 "datum" (by decide)⟩

/-- The fuel argument of the expansion pass is irrelevant once it reaches
the row count. -/
lemma expandLoopFuel_congr (dc : String) (tc hs : List String)
    (tmpl : MappingTemplate) :
    ∀ (f1 : Nat) (rows : List Row) (f2 : Nat),
      rows.length ≤ f1 → rows.length ≤ f2 →
      expandLoopFuel dc tc hs tmpl f1 rows =
        expandLoopFuel dc tc hs tmpl f2 rows := by
  intro f1
  induction f1 with
  | zero =>
    intro rows f2 h1 _
    have hrows : rows = [] := List.length_eq_zero.mp (Nat.le_zero.mp h1)
    subst hrows
    cases f2 <;> simp [expandLoopFuel]
  | succ a ih =>
    intro rows f2 h1 h2
    cases rows with
    | nil => cases f2 <;> simp [expandLoopFuel]
    | cons r rest =>
      cases f2 with
      | zero => simp at h2
      | succ b =>
        have hra : rest.length ≤ a := by
          simp only [List.length_cons] at h1
          omega
        have hrb : rest.length ≤ b := by
          simp only [List.length_cons] at h2
          omega
        have hra' : (rest.dropWhile (fun rr => ¬ rowIsDated dc rr)).length ≤
            a :=
          le_trans (List.dropWhile_sublist _).length_le hra
        have hrb' : (rest.dropWhile (fun rr => ¬ rowIsDated dc rr)).length ≤
            b :=
          le_trans (List.dropWhile_sublist _).length_le hrb
        rw [expandLoopFuel.eq_def]
        conv_rhs => rw [expandLoopFuel.eq_def]
        simp only []
        by_cases hd : rowIsDated dc r = true
        · rw [if_pos hd, if_pos hd]
          cases hpa : (compute_signed_amount r hs tmpl none).signed with
          | none =>
            simp only [hpa]
            rw [ih rest b hra hrb]
          | some pa =>
            simp only [hpa]
            by_cases hc1 : ((rest.takeWhile
                (fun rr => ¬ rowIsDated dc rr)).filter rowNonBlank ≠ [] ∧
                is_group_parent (if tc ≠ [] then compose_text r tc else "") =
                  true ∧
                |pa| > mkRat 1 1000000000)
            · rw [if_pos hc1, if_pos hc1]
              by_cases hc2 : (childAmounts
                  (((rest.takeWhile (fun rr => ¬ rowIsDated dc rr)).filter
                    rowNonBlank).map
                    (fun c => setCell c dc (safe_get r (some dc)))) hs tmpl
                  (if 0 < pa then 1 else -1) ≠ [] ∧
                  |(childAmounts
                    (((rest.takeWhile (fun rr => ¬ rowIsDated dc rr)).filter
                      rowNonBlank).map
                      (fun c => setCell c dc (safe_get r (some dc)))) hs tmpl
                    (if 0 < pa then 1 else -1)).sum - pa| ≤ mkRat 2 100)
              · rw [if_pos hc2, if_pos hc2]
                rw [ih (rest.dropWhile (fun rr => ¬ rowIsDated dc rr)) b
                  hra' hrb']
              · rw [if_neg hc2, if_neg hc2]
                rw [ih rest b hra hrb]
            · rw [if_neg hc1, if_neg hc1]
              rw [ih rest b hra hrb]
        · rw [if_neg hd, if_neg hd]
          rw [ih rest b hra hrb]

/-- C1 (amended): in the single left-to-right pass, a dated parent row is
replaced by its date-filled undated children exactly when the collected
children list is non-empty, the parent's composed text matches the
group-parent pattern (a `(<digits>)` marker or the substring `sammel`,
case-insensitive), the parent's primary signed amount is present with
magnitude above `1e-9`, and the child amounts of magnitude above `1e-9`
(resolved with the parent's sign) are non-empty and sum to the parent
amount within `0.02`; in every other case the parent row is kept verbatim
and the pass continues with the immediately following row. -/
theorem C1_amended_compound_expansion (dc : String) (tc hs : List String)
    (tmpl : MappingTemplate) (r : Row) (rest : List Row)
    (hd : rowIsDated dc r = true) :
    (((rest.takeWhile (fun rr => ¬ rowIsDated dc rr)).filter rowNonBlank ≠ [] ∧
      is_group_parent (if tc ≠ [] then compose_text r tc else "") = true ∧
      (∃ pa, (compute_signed_amount r hs tmpl none).signed = some pa ∧
        |pa| > mkRat 1 1000000000 ∧
        childAmounts
          (((rest.takeWhile (fun rr => ¬ rowIsDated dc rr)).filter
            rowNonBlank).map (fun c => setCell c dc (safe_get r (some dc))))
          hs tmpl (if 0 < pa then 1 else -1) ≠ [] ∧
        |(childAmounts
          (((rest.takeWhile (fun rr => ¬ rowIsDated dc rr)).filter
            rowNonBlank).map (fun c => setCell c dc (safe_get r (some dc))))
          hs tmpl (if 0 < pa then 1 else -1)).sum - pa| ≤ mkRat 2 100)) →
      expandLoop dc tc hs tmpl (r :: rest) =
        (((rest.takeWhile (fun rr => ¬ rowIsDated dc rr)).filter
          rowNonBlank).map (fun c => setCell c dc (safe_get r (some dc)))) ++
        expandLoop dc tc hs tmpl
          (rest.dropWhile (fun rr => ¬ rowIsDated dc rr))) ∧
    ((¬ ((rest.takeWhile (fun rr => ¬ rowIsDated dc rr)).filter rowNonBlank ≠ [] ∧
      is_group_parent (if tc ≠ [] then compose_text r tc else "") = true ∧
      (∃ pa, (compute_signed_amount r hs tmpl none).signed = some pa ∧
        |pa| > mkRat 1 1000000000 ∧
        childAmounts
          (((rest.takeWhile (fun rr => ¬ rowIsDated dc rr)).filter
            rowNonBlank).map (fun c => setCell c dc (safe_get r (some dc))))
          hs tmpl (if 0 < pa then 1 else -1) ≠ [] ∧
        |(childAmounts
          (((rest.takeWhile (fun rr => ¬ rowIsDated dc rr)).filter
            rowNonBlank).map (fun c => setCell c dc (safe_get r (some dc))))
          hs tmpl (if 0 < pa then 1 else -1)).sum - pa| ≤ mkRat 2 100))) →
      expandLoop dc tc hs tmpl (r :: rest) =
        r :: expandLoop dc tc hs tmpl rest) := by
  constructor
  · rintro ⟨hch, hgp, pa, hpa, hmag, hcn, hsum⟩
    show expandLoopFuel dc tc hs tmpl (r :: rest).length (r :: rest) = _
    rw [expandLoopFuel.eq_def]
    simp only [List.length_cons]
    rw [if_pos hd]
    simp only [hpa]
    rw [if_pos ⟨hch, hgp, hmag⟩, if_pos ⟨hcn, hsum⟩]
    congr 1
    exact expandLoopFuel_congr dc tc hs tmpl rest.length _ _
      (List.dropWhile_sublist _).length_le le_rfl
  · intro hnacc
    show expandLoopFuel dc tc hs tmpl (r :: rest).length (r :: rest) = _
    rw [expandLoopFuel.eq_def]
    simp only [List.length_cons]
    rw [if_pos hd]
    cases hpa : (compute_signed_amount r hs tmpl none).signed with
    | none =>
      simp only [hpa]
      rfl
    | some pa =>
      simp only [hpa]
      by_cases hc1 : ((rest.takeWhile
          (fun rr => ¬ rowIsDated dc rr)).filter rowNonBlank ≠ [] ∧
          is_group_parent (if tc ≠ [] then compose_text r tc else "") = true ∧
          |pa| > mkRat 1 1000000000)
      · rw [if_pos hc1]
        by_cases hc2 : (childAmounts
            (((rest.takeWhile (fun rr => ¬ rowIsDated dc rr)).filter
              rowNonBlank).map
              (fun c => setCell c dc (safe_get r (some dc)))) hs tmpl
            (if 0 < pa then 1 else -1) ≠ [] ∧
            |(childAmounts
              (((rest.takeWhile (fun rr => ¬ rowIsDated dc rr)).filter
                rowNonBlank).map
                (fun c => setCell c dc (safe_get r (some dc)))) hs tmpl
              (if 0 < pa then 1 else -1)).sum - pa| ≤ mkRat 2 100)
        · exact absurd ⟨hc1.1, hc1.2.1, pa, hpa, hc1.2.2, hc2.1, hc2.2⟩ hnacc
        · rw [if_neg hc2]
          rfl
      · rw [if_neg hc1]
        rfl

/-- A dated parent row whose text contains the word `collective` but not a
`(<digits>)` marker and not the substring `sammel`. -/
def collectiveParent : Row :=
  [("datum", "2024-01-05"), ("text", "collective payment"), ("betrag", "100")]

/-- An undated child row whose amount equals the parent amount exactly. -/
def collectiveChild : Row :=
  [("datum", ""), ("text", "child a"), ("betrag", "100")]

/-- C1 counterexample: at this input all four conditions of the claim hold
as stated — non-empty children, a parent text containing the word
`collective`, a positive parent amount, and child amounts summing to the
parent within `0.02` — yet the code keeps the parent row verbatim, because
`is_group_parent` looks for a `(<digits>)` marker or the substring
`sammel`, not the word `collective`. -/
theorem C1_counterexample :
    ([collectiveChild].filter rowNonBlank ≠ []) ∧
    strHasSub "collective"
      (String.mk ((compose_text collectiveParent ["text"]).toList.map
        Char.toLower)) = true ∧
    (compute_signed_amount collectiveParent ["datum", "text", "betrag"]
      fixtureTemplate none).signed = some 100 ∧
    (childAmounts [setCell collectiveChild "datum" "2024-01-05"]
      ["datum", "text", "betrag"] fixtureTemplate 1).sum = 100 ∧
    |(childAmounts [setCell collectiveChild "datum" "2024-01-05"]
      ["datum", "text", "betrag"] fixtureTemplate 1).sum - (100 : ℚ)| ≤
      mkRat 2 100 ∧
    is_group_parent (compose_text collectiveParent ["text"]) = false ∧
    expandLoop "datum" ["text"] ["datum", "text", "betrag"] fixtureTemplate
      [collectiveParent, collectiveChild] =
      collectiveParent :: expandLoop "datum" ["text"]
        ["datum", "text", "betrag"] fixtureTemplate [collectiveChild] ∧
    expand_compound_rows [collectiveParent, collectiveChild]
      ["datum", "text", "betrag"] fixtureTemplate =
      [collectiveParent, setCell collectiveChild "datum" "2024-01-05"] := by
  refine ⟨by decide, by decide, by decide, by decide, by decide, by decide,
    by decide, by decide⟩

/-- C1 witness: the amended step equation applied at a concrete accepted
group (`Sammelbuchung (2)` with one matching child). -/
theorem C1_witness :
    rowIsDated "datum" (fixtureGroupRows.getD 0 default) = true ∧
    ((([(fixtureGroupRows.getD 1 default)].takeWhile
        (fun rr => ¬ rowIsDated "datum" rr)).filter rowNonBlank ≠ [] ∧
      is_group_parent (if (["text"] : List String) ≠ [] then
        compose_text (fixtureGroupRows.getD 0 default) ["text"] else "") =
        true ∧
      (∃ pa, (compute_signed_amount (fixtureGroupRows.getD 0 default)
          ["datum", "text", "betrag"] fixtureTemplate none).signed = some pa ∧
        |pa| > mkRat 1 1000000000 ∧
        childAmounts
          ((([(fixtureGroupRows.getD 1 default)].takeWhile
            (fun rr => ¬ rowIsDated "datum" rr)).filter rowNonBlank).map
            (fun c => setCell c "datum"
              (safe_get (fixtureGroupRows.getD 0 default) (some "datum"))))
          ["datum", "text", "betrag"] fixtureTemplate
          (if 0 < pa then 1 else -1) ≠ [] ∧
        |(childAmounts
          ((([(fixtureGroupRows.getD 1 default)].takeWhile
            (fun rr => ¬ rowIsDated "datum" rr)).filter rowNonBlank).map
            (fun c => setCell c "datum"
              (safe_get (fixtureGroupRows.getD 0 default) (some "datum"))))
          ["datum", "text", "betrag"] fixtureTemplate
          (if 0 < pa then 1 else -1)).sum - pa| ≤ mkRat 2 100)) →
      expandLoop "datum" ["text"] ["datum", "text", "betrag"] fixtureTemplate
        ((fixtureGroupRows.getD 0 default) :: [(fixtureGroupRows.getD 1 default)]) =
        ((([(fixtureGroupRows.getD 1 default)].takeWhile
          (fun rr => ¬ rowIsDated "datum" rr)).filter rowNonBlank).map
          (fun c => setCell c "datum"
            (safe_get (fixtureGroupRows.getD 0 default) (some "datum")))) ++
        expandLoop "datum" ["text"] ["datum", "text", "betrag"] fixtureTemplate
          ([(fixtureGroupRows.getD 1 default)].dropWhile
            (fun rr => ¬ rowIsDated "datum" rr))) :=
  ⟨by decide,
   (C1_amended_compound_expansion "datum" ["text"] ["datum", "text", "betrag"]
     fixtureTemplate (fixtureGroupRows.getD 0 default)
     [(fixtureGroupRows.getD 1 default)] (by decide)).1⟩

/-- Members of the first-occurrence deduplication come from the input. -/
lemma dedupKeepFirstAux_subset (x : String) :
    ∀ (seen l : List String), x ∈ dedupKeepFirstAux seen l → x ∈ l := by
  intro seen l
  induction l generalizing seen with
  | nil => intro h; simp [dedupKeepFirstAux] at h
  | cons a l ih =>
    intro h
    rw [dedupKeepFirstAux] at h
    by_cases ha : a ∈ seen
    · rw [if_pos ha] at h
      exact List.mem_cons_of_mem _ (ih seen h)
    · rw [if_neg ha] at h
      rcases List.mem_cons.mp h with rfl | h'
      · exact List.mem_cons_self _ _
      · exact List.mem_cons_of_mem _ (ih _ h')

/-- The fallback scan picks the first candidate column whose cell parses to
a value of magnitude at least `1e-12`; every earlier candidate fails to
parse or is below the threshold. -/
lemma fallbackScan_split (row : Row) (tmpl : MappingTemplate) :
    ∀ (l : List String) (v : ℚ) (h : String),
      fallbackScan row tmpl l = some (v, h) →
      ∃ l1 l2, l = l1 ++ h :: l2 ∧
        parse_number (safe_get row (some h)) tmpl.input.csv.decimal_separator
          tmpl.input.csv.thousands_separator = some v ∧
        ¬ (|v| < mkRat 1 1000000000000) ∧
        (∀ h' ∈ l1, ∀ w, parse_number (safe_get row (some h'))
          tmpl.input.csv.decimal_separator tmpl.input.csv.thousands_separator =
          some w → |w| < mkRat 1 1000000000000) := by
  intro l
  induction l with
  | nil => intro v h hc; simp [fallbackScan] at hc
  | cons x xs ih =>
    intro v h hc
    rw [fallbackScan] at hc
    cases hx : parse_number (safe_get row (some x))
        tmpl.input.csv.decimal_separator tmpl.input.csv.thousands_separator with
    | none =>
      rw [hx] at hc
      simp only [] at hc
      obtain ⟨l1, l2, hl, hp, hnt, hsmall⟩ := ih v h hc
      refine ⟨x :: l1, l2, by rw [hl]; rfl, hp, hnt, ?_⟩
      intro h' hh' w hw
      rcases List.mem_cons.mp hh' with rfl | hh''
      · rw [hx] at hw; cases hw
      · exact hsmall h' hh'' w hw
    | some w =>
      rw [hx] at hc
      simp only [] at hc
      by_cases hw : |w| < mkRat 1 1000000000000
      · rw [if_pos hw] at hc
        obtain ⟨l1, l2, hl, hp, hnt, hsmall⟩ := ih v h hc
        refine ⟨x :: l1, l2, by rw [hl]; rfl, hp, hnt, ?_⟩
        intro h' hh' w' hw'
        rcases List.mem_cons.mp hh' with rfl | hh''
        · rw [hx] at hw'
          cases hw'
          exact hw
        · exact hsmall h' hh'' w' hw'
      · rw [if_neg hw] at hc
        injection hc with hc'
        injection hc' with hv hh
        subst hv
        subst hh
        exact ⟨[], xs, rfl, hx, hw, by intro h' hh'; cases hh'⟩

/-- Every fallback candidate has a priority score consistent with its
bucket. -/
lemma mem_filter_score {l : List String} {i : Nat} {x : String}
    (hx : x ∈ l.filter (fun h => fallbackScore h = i)) : fallbackScore x = i := by
  have := (List.mem_filter.mp hx).2
  exact of_decide_eq_true this

/-- C4 (amended): the fallback search runs exactly when the primary
resolution is missing or has magnitude below `1e-12`; the candidate list
consists of the amount-keyword headers in weakly increasing priority
order; the scan takes the first cell parsing to magnitude at least
`1e-12` (not merely non-zero), recording its column as the source; and a
supplied `parentSign` of `±1` forces the result to `|value| * parentSign`. -/
theorem C4_amended_fallback (row : Row) (hs : List String)
    (tmpl : MappingTemplate) (ps : Option Int) :
    (∀ v, primarySigned row tmpl = some v →
      ¬ (|v| < mkRat 1 1000000000000) →
      compute_signed_amount row hs tmpl ps =
        ⟨some v, signDir v, "mapped"⟩) ∧
    (∀ h ∈ find_amount_fallback hs, h ∈ hs ∧
      (amountKeywords.any (fun k => strHasSub k h)) = true) ∧
    (find_amount_fallback hs).Pairwise
      (fun a b => fallbackScore a ≤ fallbackScore b) ∧
    ((primarySigned row tmpl = none ∨
      (∃ v, primarySigned row tmpl = some v ∧ |v| < mkRat 1 1000000000000)) →
      ((∀ v h, fallbackScan row tmpl (find_amount_fallback hs) = some (v, h) →
        (compute_signed_amount row hs tmpl ps).source = "fallback:" ++ h ∧
        (compute_signed_amount row hs tmpl ps).signed =
          some (if ps = some 1 ∨ ps = some (-1)
            then |v| * ((ps.getD 1 : Int) : ℚ) else v)) ∧
      (fallbackScan row tmpl (find_amount_fallback hs) = none →
        (compute_signed_amount row hs tmpl ps).source = "mapped"))) ∧
    (∀ v h, fallbackScan row tmpl (find_amount_fallback hs) = some (v, h) →
      ∃ l1 l2, find_amount_fallback hs = l1 ++ h :: l2 ∧
        parse_number (safe_get row (some h)) tmpl.input.csv.decimal_separator
          tmpl.input.csv.thousands_separator = some v ∧
        ¬ (|v| < mkRat 1 1000000000000) ∧
        (∀ h' ∈ l1, ∀ w, parse_number (safe_get row (some h'))
          tmpl.input.csv.decimal_separator tmpl.input.csv.thousands_separator =
          some w → |w| < mkRat 1 1000000000000)) := by
  refine ⟨?_, ?_, ?_, ?_, ?_⟩
  · intro v hv hnv
    have hnf : needsFallback (some v) = false := by
      simp [needsFallback, hnv]
    unfold compute_signed_amount
    simp only [hv, hnf, Bool.false_eq_true, if_false]
    rfl
  · intro h hmem
    have huniq : h ∈ dedupKeepFirst (hs.filter
        (fun x => amountKeywords.any (fun k => strHasSub k x))) := by
      unfold find_amount_fallback at hmem
      rcases List.mem_append.mp hmem with hm | hm
      · rcases List.mem_append.mp hm with hm' | hm'
        · rcases List.mem_append.mp hm' with hm'' | hm''
          · exact (List.mem_filter.mp hm'').1
          · exact (List.mem_filter.mp hm'').1
        · exact (List.mem_filter.mp hm').1
      · exact (List.mem_filter.mp hm).1
    have hcand := dedupKeepFirstAux_subset h [] _ huniq
    have := List.mem_filter.mp hcand
    exact ⟨this.1, this.2⟩
  · unfold find_amount_fallback
    have hscore : ∀ (i : Nat) (l : List String) (x : String),
        x ∈ l.filter (fun h => fallbackScore h = i) → fallbackScore x = i :=
      fun i l x hx => mem_filter_score hx
    refine (List.pairwise_append).mpr ⟨?_, ?_, ?_⟩
    · refine (List.pairwise_append).mpr ⟨?_, ?_, ?_⟩
      · refine (List.pairwise_append).mpr ⟨?_, ?_, ?_⟩
        · refine List.pairwise_of_forall_mem_list ?_
          intro a ha b hb
          rw [hscore 0 _ a ha, hscore 0 _ b hb]
        · refine List.pairwise_of_forall_mem_list ?_
          intro a ha b hb
          rw [hscore 1 _ a ha, hscore 1 _ b hb]
        · intro a ha b hb
          rw [hscore 0 _ a ha, hscore 1 _ b hb]
          omega
      · refine List.pairwise_of_forall_mem_list ?_
        intro a ha b hb
        rw [hscore 2 _ a ha, hscore 2 _ b hb]
      · intro a ha b hb
        rcases List.mem_append.mp ha with ha' | ha'
        · rw [hscore 0 _ a ha', hscore 2 _ b hb]
          omega
        · rw [hscore 1 _ a ha', hscore 2 _ b hb]
          omega
    · refine List.pairwise_of_forall_mem_list ?_
      intro a ha b hb
      rw [hscore 3 _ a ha, hscore 3 _ b hb]
    · intro a ha b hb
      rw [hscore 3 _ b hb]
      rcases List.mem_append.mp ha with ha' | ha'
      · rcases List.mem_append.mp ha' with ha'' | ha''
        · rw [hscore 0 _ a ha'']
          omega
        · rw [hscore 1 _ a ha'']
          omega
      · rw [hscore 2 _ a ha']
        omega
  · intro htrig
    have hnf : needsFallback (primarySigned row tmpl) = true := by
      rcases htrig with hn | ⟨v, hv, hsmall⟩
      · rw [hn]; rfl
      · rw [hv]; simp [needsFallback, hsmall]
    constructor
    · intro v h hscan
      unfold compute_signed_amount
      simp only [hnf, if_true, hscan]
      by_cases hps : ps = some 1 ∨ ps = some (-1) <;> simp [hps]
    · intro hscan
      unfold compute_signed_amount
      simp only [hnf, if_true, hscan]
  · intro v h hscan
    exact fallbackScan_split row tmpl _ v h hscan

/-- C4 counterexample: with no signed column the primary resolution is
`null`, so the fallback is triggered; the only candidate cell parses to the
non-zero value `1e-13`, yet the scan skips it because its magnitude is
below `1e-12`, and the final amount stays `null` — the fallback does not
take the first non-zero parse, only the first parse of magnitude at least
`1e-12`. -/
theorem C4_counterexample :
    primarySigned [("betrag", "0.0000000000001")] fixtureTemplateNoAmount =
      none ∧
    find_amount_fallback ["betrag"] = ["betrag"] ∧
    parse_number (safe_get [("betrag", "0.0000000000001")] (some "betrag"))
      "auto" "auto" = some (mkRat 1 10000000000000) ∧
    mkRat 1 10000000000000 ≠ 0 ∧
    fallbackScan [("betrag", "0.0000000000001")] fixtureTemplateNoAmount
      ["betrag"] = none ∧
    (compute_signed_amount [("betrag", "0.0000000000001")] ["betrag"]
      fixtureTemplateNoAmount none).signed = none := by
  refine ⟨by decide, by decide, by decide, by decide, by decide, by decide⟩

/-- C4 witness: the amended fallback behaviour at a concrete row where the
primary resolution is missing and the scan finds `betrag = 7`. -/
theorem C4_witness :
    (primarySigned [("betrag", "7")] fixtureTemplateNoAmount = none ∨
      (∃ v, primarySigned [("betrag", "7")] fixtureTemplateNoAmount = some v ∧
        |v| < mkRat 1 1000000000000)) ∧
    fallbackScan [("betrag", "7")] fixtureTemplateNoAmount
      (find_amount_fallback ["betrag"]) = some (7, "betrag") ∧
    (compute_signed_amount [("betrag", "7")] ["betrag"]
      fixtureTemplateNoAmount none).source = "fallback:betrag" ∧
    (compute_signed_amount [("betrag", "7")] ["betrag"]
      fixtureTemplateNoAmount none).signed = some 7 := by
  have h := ((C4_amended_fallback [("betrag", "7")] ["betrag"]
    fixtureTemplateNoAmount none).2.2.2.1 (Or.inl (by decide))).1 7 "betrag"
    (by decide)
  refine ⟨Or.inl (by decide), by decide, h.1, ?_⟩
  have h2 := h.2
  simpa using h2

end RatKernelEval
